import Mathlib

/-!
Verification of the fuzzy-matcher and workflow-analyzer core of the
comfyui-model-linker-desktop repository (`src/core/matcher.py` and
`src/core/workflow_analyzer.py`), shallowly embedded in Lean 4.

Python strings are modelled as `List Char`; Python floats are modelled as
exact rationals `ℚ` (all arithmetic the claims depend on — thresholds,
the 0.999 cap, the 0.7/0.3 blend — is order-robust under this modelling).
Fallible Python code (statements that can raise) is modelled with
`Except PyErr`.  External collaborators (the `folder_paths` registry and
the filesystem) are modelled as an explicit `Env` parameter.
-/

set_option maxRecDepth 10000

namespace ModelLinker

/-- Convert a Lean string literal to the `List Char` representation used
throughout (Python `str` is a sequence of code points). -/
def pstr (s : String) : List Char := s.data

/-- The whitespace class of the Python methods `str.strip` / `str.split` and
the regex class `\s` (restricted to the ASCII fragment, which is all the
repository inputs use). -/
def pyWs (c : Char) : Bool :=
  c = ' ' ∨ c = '\t' ∨ c = '\n' ∨ c = '\r' ∨ c = '\x0b' ∨ c = '\x0c'

/-- Character class of the regex `[_\-\s]+` in `normalize_filename`. -/
def sepClass (c : Char) : Bool := c = '_' ∨ c = '-' ∨ pyWs c

/-- Character class of the regex `[_\-\.]+` in `tokenize_model_name`. -/
def tokSepClass (c : Char) : Bool := c = '_' ∨ c = '-' ∨ c = '.'

/-- Index of the last occurrence of `c` in `s` (Python `str.rfind`,
with `none` playing the role of `-1`). -/
def rfindIdx (s : List Char) (c : Char) : Option Nat :=
  match s with
  | [] => none
  | x :: r =>
    match rfindIdx r c with
    | some i => some (i + 1)
    | none => if x = c then some 0 else none

/-- Model of `os.path.splitext` (posix rules: separator `/`, no altsep): split off the
last `.`-suffix of the final path component, unless the dots are all leading
dots of that component. -/
def splitext (p : List Char) : List Char × List Char :=
  let sepIndex := rfindIdx p '/'
  let dotIndex := rfindIdx p '.'
  match dotIndex with
  | none => (p, [])
  | some d =>
    let fs := match sepIndex with | none => 0 | some sp => sp + 1
    let sepBelowDot : Bool := match sepIndex with | none => true | some sp => sp < d
    if sepBelowDot && ((p.drop fs).take (d - fs)).any (fun c => c ≠ '.')
    then (p.take d, p.drop d) else (p, [])

/-- Model of `os.path.basename` (posix): everything after the last `/`. -/
def basename (p : List Char) : List Char :=
  p.drop (match rfindIdx p '/' with | none => 0 | some i => i + 1)

/-- Python `str.lower` (character-wise; adequate for the ASCII inputs of this
repository). -/
def lowerStr (s : List Char) : List Char := s.map Char.toLower

/-- Model of `re.sub(cls+, ' ', s)`: replace every maximal run of characters of class
`cls` with one space.  `inRun` records whether the previous character was in
the class. -/
def collapseRuns (cls : Char → Bool) : List Char → Bool → List Char
  | [], _ => []
  | c :: r, inRun =>
    if cls c then
      (if inRun then collapseRuns cls r true else ' ' :: collapseRuns cls r true)
    else c :: collapseRuns cls r false

/-- Python `str.strip()`: drop leading and trailing whitespace. -/
def stripWs (s : List Char) : List Char :=
  ((s.dropWhile pyWs).reverse.dropWhile pyWs).reverse

/-- Python `str.split()` (no argument): split on whitespace runs, dropping
empty pieces.  `acc` is the (reversed) current word. -/
def wordsAux : List Char → List Char → List (List Char)
  | [], acc => if acc = [] then [] else [acc.reverse]
  | c :: r, acc =>
    if pyWs c then
      (if acc = [] then wordsAux r [] else acc.reverse :: wordsAux r [])
    else wordsAux r (c :: acc)

/-- Model of `matcher.normalize_filename`: strip extension, lowercase, collapse
`[_\-\s]+` runs to single spaces, strip. -/
def normalize_filename (filename : List Char) : List Char :=
  stripWs (collapseRuns sepClass (lowerStr (splitext filename).1) false)

/-- Model of `matcher.tokenize_model_name`: strip extension, lowercase, collapse
`[_\-\.]+` runs to single spaces, split on whitespace (the version-processing
loop in the source is the identity, and `split()` already drops empties). -/
def tokenize_model_name (filename : List Char) : List (List Char) :=
  wordsAux (collapseRuns tokSepClass (lowerStr (splitext filename).1) false) []

/-- Cardinality of `set(l1) & set(l2)` (Python set intersection), computed as
an executable list operation: distinct elements of `l1` also occurring in `l2`. -/
def setInterCard (l1 l2 : List (List Char)) : Nat :=
  (l1.dedup.filter (fun t => t ∈ l2)).length

/-- Cardinality of `set(l1) | set(l2)` (Python set union). -/
def setUnionCard (l1 l2 : List (List Char)) : Nat :=
  (l1 ++ l2).dedup.length

/-- The `(max_check, matching_order)` pair of the order-bonus computation in
`calculate_token_similarity`: `max_check = min(3, len1, len2)` positions are
examined and the positions where the token lists agree are counted. -/
def orderCounts (tokens1 tokens2 : List (List Char)) : Nat × Nat :=
  let max_check := min 3 (min tokens1.length tokens2.length)
  (max_check,
   ((List.range max_check).filter
     (fun i => tokens1.getD i [] = tokens2.getD i [])).length)

/-- The Jaccard term `len(set1 & set2) / len(set1 | set2)` of
`calculate_token_similarity`, as an exact rational. -/
def jaccardQ (tokens1 tokens2 : List (List Char)) : ℚ :=
  (setInterCard tokens1 tokens2 : ℚ) / (setUnionCard tokens1 tokens2 : ℚ)

/-- The `order_score` term of `calculate_token_similarity`:
`matching_order / max_check * 0.2` when both token lists have length > 1,
else 0. -/
def orderScore (tokens1 tokens2 : List (List Char)) : ℚ :=
  if 1 < tokens1.length ∧ 1 < tokens2.length then
    ((orderCounts tokens1 tokens2).2 : ℚ) / ((orderCounts tokens1 tokens2).1 : ℚ) * (1 / 5)
  else 0

/-- Model of `matcher.calculate_token_similarity`: Jaccard similarity of the token sets
plus an order bonus over the first `min(3, len, len)` positions, capped at 1
(`min(x, 1.0)` written out as its conditional). -/
def calculate_token_similarity (tokens1 tokens2 : List (List Char)) : ℚ :=
  if tokens1 = [] ∨ tokens2 = [] then 0
  else if setUnionCard tokens1 tokens2 = 0 then 0
  else
    if jaccardQ tokens1 tokens2 + orderScore tokens1 tokens2 ≤ 1
    then jaccardQ tokens1 tokens2 + orderScore tokens1 tokens2 else 1

/-!
### Model of `difflib.SequenceMatcher(None, a, b).ratio()`

`calculate_similarity` in `matcher.py` delegates to the Python standard
library class `SequenceMatcher`.  The algorithm is modelled faithfully:
`b2j` with autojunk purging of popular elements (only active for
`len(b) >= 200`), the `j2len` row recurrence of `find_longest_match`, the
best-block scan, the non-junk extension loops, and the recursive block
decomposition of `get_matching_blocks`.  Since the matcher always calls
`SequenceMatcher(None, ...)`, the junk set `bjunk` is empty, so the two
junk-extension loops of `find_longest_match` never execute and are omitted.
`ratio()` only consumes the total size of the matching blocks, so the final
sort/merge of `get_matching_blocks` (which preserves that total) is not
modelled.  Loops whose counters are not structurally decreasing are given
explicit fuel that provably dominates their iteration count.
-/

/-- The popular elements `autojunk` purges from `b2j`: when `len(b) >= 200`,
all elements occurring more than `len(b) // 100 + 1` times. -/
def bpopular (b : List Char) : List Char :=
  if 200 ≤ b.length then b.dedup.filter (fun c => b.length / 100 + 1 < b.count c) else []

/-- Whether position `j` of `b` participates in the `j2len` recurrence when
scanning position `i` of `a`: `j` must be one of `b2j[a[i]]` (i.e. `b[j] == a[i]`
and `a[i]` not purged as popular) and lie in `[blo, bhi)`. -/
def hitB (a b popular : List Char) (blo bhi i j : Nat) : Bool :=
  decide (blo ≤ j) && decide (j < bhi) &&
  (b.getD j ' ' == a.getD i ' ') && !(popular.contains (a.getD i ' '))

/-- One `j2len` row of `find_longest_match`: `newj2len[j] = j2len.get(j-1, 0) + 1`
at the hit positions, absent (0) elsewhere.  Rows are materialised as lists
indexed by `j < bhi`. -/
def newRow (a b popular : List Char) (blo bhi i : Nat) (prev : List Nat) : List Nat :=
  (List.range bhi).map fun j =>
    if hitB a b popular blo bhi i j then (if j = 0 then 0 else prev.getD (j - 1) 0) + 1 else 0

/-- The `besti, bestj, bestsize` triple of `find_longest_match`. -/
structure Best where
  bi : Nat
  bj : Nat
  bs : Nat
deriving DecidableEq

/-- The `if k > bestsize` update, scanned over `j` in ascending order (Python
scans only `j ∈ b2j[a[i]]`, but positions with `newj2len[j] = 0` never win,
so scanning all of `[blo, bhi)` is equivalent). -/
def scanBest (row : List Nat) (i blo bhi : Nat) (best : Best) : Best :=
  (List.range' blo (bhi - blo)).foldl
    (fun bst j =>
      let k := row.getD j 0
      if bst.bs < k then ⟨i + 1 - k, j + 1 - k, k⟩ else bst)
    best

/-- The main double loop of `find_longest_match` over `i ∈ [alo, ahi)`,
threading the `j2len` row and the best block (initially `(alo, blo, 0)`). -/
def flmLoop (a b popular : List Char) (alo ahi blo bhi : Nat) : Best :=
  ((List.range' alo (ahi - alo)).foldl
    (fun (st : List Nat × Best) i =>
      let row := newRow a b popular blo bhi i st.1
      (row, scanBest row i blo bhi st.2))
    ([], ⟨alo, blo, 0⟩)).2

/-- The first (backward) non-junk extension loop of `find_longest_match`:
`while besti > alo and bestj > blo and a[besti-1] == b[bestj-1]`.  Each
iteration decreases `besti` and requires `besti > alo`, so the loop runs at
most `besti` times; with fuel `besti + 1` the fuel never runs out. -/
def extendTop (a b : List Char) (alo blo : Nat) : Nat → Best → Best
  | 0, bst => bst
  | fuel + 1, bst =>
    if alo < bst.bi ∧ blo < bst.bj ∧ a.getD (bst.bi - 1) ' ' = b.getD (bst.bj - 1) ' '
    then extendTop a b alo blo fuel ⟨bst.bi - 1, bst.bj - 1, bst.bs + 1⟩
    else bst

/-- The second (forward) non-junk extension loop:
`while besti+bestsize < ahi and bestj+bestsize < bhi and a[..] == b[..]`.
Each iteration increases `bestsize` and requires `besti + bestsize < ahi`,
so it runs at most `ahi - (besti + bestsize)` times. -/
def extendBot (a b : List Char) (ahi bhi : Nat) : Nat → Best → Best
  | 0, bst => bst
  | fuel + 1, bst =>
    if bst.bi + bst.bs < ahi ∧ bst.bj + bst.bs < bhi ∧
       a.getD (bst.bi + bst.bs) ' ' = b.getD (bst.bj + bst.bs) ' '
    then extendBot a b ahi bhi fuel ⟨bst.bi, bst.bj, bst.bs + 1⟩
    else bst

/-- Model of `SequenceMatcher.find_longest_match(alo, ahi, blo, bhi)` (with empty junk
set: the junk-extension loops never fire). -/
def find_longest_match (a b : List Char) (alo ahi blo bhi : Nat) : Best :=
  let popular := bpopular b
  let r0 := flmLoop a b popular alo ahi blo bhi
  let r1 := extendTop a b alo blo (r0.bi + 1) r0
  extendBot a b ahi bhi (ahi - (r1.bi + r1.bs) + 1) r1

/-- The recursive block decomposition of `get_matching_blocks` (the queue in
the Python source processes exactly these spans; the final sort and merge of
adjacent blocks preserve the total size, which is all `ratio()` consumes).
Each recursive span is strictly shorter in the `a` dimension, so recursion
depth is at most `ahi - alo`; the fuel `a.length + 1` used below dominates it. -/
def matchingBlocksF (a b : List Char) : Nat → Nat → Nat → Nat → Nat → List (Nat × Nat × Nat)
  | 0, _, _, _, _ => []
  | fuel + 1, alo, ahi, blo, bhi =>
    let r := find_longest_match a b alo ahi blo bhi
    if r.bs = 0 then []
    else
      (if alo < r.bi ∧ blo < r.bj then matchingBlocksF a b fuel alo r.bi blo r.bj else []) ++
      (r.bi, r.bj, r.bs) ::
      (if r.bi + r.bs < ahi ∧ r.bj + r.bs < bhi
       then matchingBlocksF a b fuel (r.bi + r.bs) ahi (r.bj + r.bs) bhi else [])

/-- Total size of a list of matching blocks (the `matches` of `ratio()`). -/
def sumSizes (blocks : List (Nat × Nat × Nat)) : Nat := (blocks.map (fun x => x.2.2)).sum

/-- The value `sum(size for _, _, size in SequenceMatcher(None, a, b).get_matching_blocks())`. -/
def seqMatcherM (a b : List Char) : Nat :=
  sumSizes (matchingBlocksF a b (a.length + 1) 0 a.length 0 b.length)

/-- Model of `matcher.calculate_similarity`: `SequenceMatcher(None, str1, str2).ratio()`,
i.e. `2.0 * matches / (len(a) + len(b))`, and 1.0 for two empty strings. -/
def calculate_similarity (str1 str2 : List Char) : ℚ :=
  if str1.length + str2.length = 0 then 1
  else 2 * (seqMatcherM str1 str2 : ℚ) / ((str1.length : ℚ) + (str2.length : ℚ))

/-- Model of `matcher.calculate_similarity_with_normalization`: 1.0 on equal normalized
forms (the short-circuit), otherwise the 70/30 blend of token similarity and
character similarity of the normalized forms. -/
def calculate_similarity_with_normalization (str1 str2 : List Char) : ℚ :=
  let norm1 := normalize_filename str1
  let norm2 := normalize_filename str2
  if norm1 = norm2 then 1
  else
    let token_sim := calculate_token_similarity (tokenize_model_name str1) (tokenize_model_name str2)
    let char_sim := calculate_similarity norm1 norm2
    token_sim * (7 / 10) + char_sim * (3 / 10)

/-- A candidate model dictionary as consumed by `find_matches`: the keys
`filename`, `path` and `relative_path` it may read (`none` = key absent). -/
structure Candidate where
  filename : Option (List Char) := none
  path : Option (List Char) := none
  relative_path : Option (List Char) := none
deriving DecidableEq

/-- Filename derivation of `find_matches`: prefer a truthy `filename` value,
else take the basename of `path` (if truthy) or of `relative_path`; an empty
result means the candidate is skipped. -/
def candidateFilename (c : Candidate) : List Char :=
  let f := c.filename.getD []
  if f ≠ [] then f
  else
    let p := c.path.getD []
    let candidate_path := if p ≠ [] then p else c.relative_path.getD []
    if candidate_path ≠ [] then basename candidate_path else []

/-- One entry of the `find_matches` result list. -/
structure MatchEntry where
  model : Candidate
  filename : List Char
  similarity : ℚ
  confidence : ℚ
deriving DecidableEq

/-- Python `round(x, 1)` (round-half-even at one decimal place), modelled as
exact half-even rounding on ℚ. -/
def pyRound1 (x : ℚ) : ℚ :=
  let y := x * 10
  let n : ℤ := ⌊y⌋
  let r : ℤ :=
    if y - n < 1 / 2 then n
    else if (1 / 2 : ℚ) < y - n then n + 1
    else if n % 2 = 0 then n else n + 1
  (r : ℚ) / 10

/-- The body of the candidate loop of `find_matches`: derive the filename
(skip if empty), compute the similarity (1.0 on exact normalized match, else
the capped maximum of the two blended similarities), and keep the entry if it
clears the threshold.  `max(a, b)` is written out as its conditional. -/
def processCandidate (target_filename target_norm : List Char) (threshold : ℚ)
    (c : Candidate) : Option MatchEntry :=
  let candidate_filename := candidateFilename c
  if candidate_filename = [] then none
  else
    let candidate_norm := normalize_filename candidate_filename
    let similarity : ℚ :=
      if target_norm = candidate_norm then 1
      else
        let s1 := calculate_similarity_with_normalization target_filename candidate_filename
        let s2 := calculate_similarity_with_normalization
          (splitext target_filename).1 (splitext candidate_filename).1
        let m := if s1 < s2 then s2 else s1
        if 999 / 1000 ≤ m then 999 / 1000 else m
    if threshold ≤ similarity then
      some ⟨c, candidate_filename, similarity, pyRound1 (similarity * 100)⟩
    else none

/-- Insert into a descending-by-similarity list, after all entries with
greater-or-equal similarity (so the overall sort below is stable, like
the Python stable `list.sort`). -/
def insertDesc (e : MatchEntry) : List MatchEntry → List MatchEntry
  | [] => [e]
  | f :: r => if f.similarity < e.similarity then e :: f :: r else f :: insertDesc e r

/-- Stable descending sort by similarity (`matches.sort(key=..., reverse=True)`). -/
def sortDesc (l : List MatchEntry) : List MatchEntry :=
  l.foldl (fun acc e => insertDesc e acc) []

/-- Model of `matcher.find_matches`: filter-and-score the candidates, sort descending
by similarity, truncate to `max_results`. -/
def find_matches (target_model : List Char) (candidate_models : List Candidate)
    (threshold : ℚ) (max_results : Nat) : List MatchEntry :=
  let target_filename := basename target_model
  let target_norm := normalize_filename target_filename
  (sortDesc (candidate_models.filterMap
    (processCandidate target_filename target_norm threshold))).take max_results

/-!
### Model of `workflow_analyzer.py`

Workflow documents are JSON values.  Python statements that can raise
(`in` on non-containers, subscripting, `.get`/`.items` on non-dicts,
iterating non-iterables, dict lookup with an unhashable key) are modelled
with `Except PyErr`; the per-node `try/except` blocks of
`analyze_workflow_models` recover per node exactly as the source does —
including the graph-branch handlers whose log message itself re-raises on
non-mapping nodes (see `graphNodeStep`).
The external `folder_paths` registry and the filesystem are an `Env`.
-/

/-- JSON values (Python objects as parsed from workflow JSON). -/
inductive Json where
  | null : Json
  | bool (b : Bool) : Json
  | num (q : ℚ) : Json
  | str (s : List Char) : Json
  | arr (xs : List Json) : Json
  | obj (kvs : List (List Char × Json)) : Json

/-- The Python exceptions the analyzer code can raise. -/
inductive PyErr where
  | typeError : PyErr
  | attributeError : PyErr
deriving DecidableEq

/-- Whether `pat` occurs at the start of `s` (helper for the substring test
of the Python `in` operator on strings). -/
def beginsWith : List Char → List Char → Bool
  | [], _ => true
  | _ :: _, [] => false
  | p :: ps, c :: cs => p = c && beginsWith ps cs

/-- Whether `pat` occurs somewhere inside `s` (`pat in s` on Python strings). -/
def hasSub (pat : List Char) : List Char → Bool
  | [] => pat.isEmpty
  | c :: rest => beginsWith pat (c :: rest) || hasSub pat rest

/-- Association-list lookup (Python dict lookup; JSON object keys are unique,
so first-match lookup is dict semantics). -/
def alookup {α : Type} : List (List Char × α) → List Char → Option α
  | [], _ => none
  | (k, v) :: r, key => if k = key then some v else alookup r key

/-- Model of `d.get(key, default)` on a JSON object. -/
def jlookupD (kvs : List (List Char × Json)) (key : List Char) (d : Json) : Json :=
  (alookup kvs key).getD d

/-- Python truthiness of a JSON value. -/
def jtruthy : Json → Bool
  | .null => false
  | .bool b => b
  | .num q => decide (q ≠ 0)
  | .str s => !s.isEmpty
  | .arr xs => !xs.isEmpty
  | .obj kvs => !kvs.isEmpty

/-- Model of `for x in v`: what Python iteration yields — list elements, the characters
of a string (as 1-character strings), the keys of a dict — or a `TypeError`
for non-iterables. -/
def jsonEnumerate : Json → Except PyErr (List Json)
  | .arr xs => .ok xs
  | .str s => .ok (s.map (fun c => Json.str [c]))
  | .obj kvs => .ok (kvs.map (fun kv => Json.str kv.1))
  | _ => .error .typeError

/-- The set `workflow_analyzer.MODEL_EXTENSIONS`. -/
def MODEL_EXTENSIONS : List (List Char) :=
  [pstr ".ckpt", pstr ".pt", pstr ".pt2", pstr ".bin", pstr ".pth",
   pstr ".safetensors", pstr ".pkl", pstr ".sft", pstr ".onnx"]

/-- The table `workflow_analyzer.NODE_TYPE_TO_CATEGORY_HINTS`. -/
def NODE_TYPE_TO_CATEGORY_HINTS : List (List Char × List Char) :=
  [(pstr "CheckpointLoaderSimple", pstr "checkpoints"),
   (pstr "CheckpointLoader", pstr "checkpoints"),
   (pstr "unCLIPCheckpointLoader", pstr "checkpoints"),
   (pstr "VAELoader", pstr "vae"),
   (pstr "LoraLoader", pstr "loras"),
   (pstr "LoraLoaderModelOnly", pstr "loras"),
   (pstr "UNETLoader", pstr "diffusion_models"),
   (pstr "ControlNetLoader", pstr "controlnet"),
   (pstr "ControlNetLoaderAdvanced", pstr "controlnet"),
   (pstr "CLIPLoader", pstr "text_encoders"),
   (pstr "CLIPVisionLoader", pstr "clip_vision"),
   (pstr "UpscaleModelLoader", pstr "upscale_models"),
   (pstr "HypernetworkLoader", pstr "hypernetworks"),
   (pstr "EmbeddingLoader", pstr "embeddings")]

/-- The set `workflow_analyzer.MODEL_INPUT_FIELDS`. -/
def MODEL_INPUT_FIELDS : List (List Char) :=
  [pstr "ckpt_name", pstr "checkpoint_name", pstr "model_name",
   pstr "vae_name", pstr "lora_name", pstr "unet_name", pstr "clip_name",
   pstr "control_net_name", pstr "controlnet_name",
   pstr "upscale_model", pstr "hypernetwork_name", pstr "embedding_name"]

/-- Model of `workflow_analyzer.is_model_filename`: a string whose extension (after
lowercasing the whole value, as the source does) is a known model extension. -/
def is_model_filename : Json → Bool
  | .str s => MODEL_EXTENSIONS.contains (splitext (lowerStr s)).2
  | _ => false

/-- Model of `NODE_TYPE_TO_CATEGORY_HINTS.get(node_type)`: dict lookup keyed by an
arbitrary value — hashable non-string keys miss, unhashable keys (lists,
dicts) raise `TypeError`. -/
def hintLookup : Json → Except PyErr (Option (List Char))
  | .str s => .ok (alookup NODE_TYPE_TO_CATEGORY_HINTS s)
  | .null | .bool _ | .num _ => .ok none
  | .arr _ | .obj _ => .error .typeError

/-- Model of `categories_to_try = [category_hint] if category_hint else None`
(note the truthiness test on the hint). -/
def catsOfHint (hint : Option (List Char)) : Option (List (List Char)) :=
  match hint with
  | some h => if h = [] then none else some [h]
  | none => none

/-- Model of the fallback `category_hint or unknown-string` of the source. -/
def orUnknown (hint : Option (List Char)) : List Char :=
  match hint with
  | some h => if h = [] then pstr "unknown" else h
  | none => pstr "unknown"

/-- The external collaborators of the analyzer: `folder_paths` resolution
(given a filename and an optional category restriction, the first category
with an existing file, as `(category, full_path)`) and `os.path.exists`. -/
structure Env where
  resolve : List Char → Option (List (List Char)) → Option (List Char × List Char)
  pathExists : List Char → Bool

/-- Model of `workflow_analyzer.try_resolve_model_path`: `None` for blank values,
else probe the registry with the stripped filename and the hinted categories
minus the skipped non-model categories (call sites always pass strings, and
the internal per-category `try/except` makes the probe total). -/
def try_resolve_model_path (env : Env) (value : List Char)
    (categories : Option (List (List Char))) : Option (List Char × List Char) :=
  if stripWs value = [] then none
  else
    let cats := categories.map
      (·.filter (fun c => !(c = pstr "custom_nodes" ∨ c = pstr "configs")))
    env.resolve (stripWs value) cats

/-- The `widget_index`/`field_name` locator of an `AssetReference`: a
positional index in graph format, a field name in API format. -/
inductive Locator where
  | idx (n : Nat) : Locator
  | field (s : List Char) : Locator
deriving DecidableEq

/-- One model-reference dictionary as produced by the analyzer
(`exists` is named `file_exists`; the three subgraph keys are only present
on subgraph references, hence `Option`). -/
structure ModelRef where
  node_id : Json
  node_type : Json
  widget_index : Locator
  field_name : Option (List Char) := none
  original_path : List Char
  category : List Char
  full_path : Option (List Char) := none
  file_exists : Bool
  subgraph_id : Option Json := none
  subgraph_name : Option Json := none
  is_top_level : Option Bool := none

/-- The `for idx, value in enumerate(widgets_values)` loop of
`get_node_model_info_graph`: emit one reference per value that looks like a
model filename, with the positional index as locator. -/
def graphWidgetRefs (env : Env) (node_id node_type : Json) (hint : Option (List Char))
    (cats : Option (List (List Char))) : Nat → List Json → List ModelRef
  | _, [] => []
  | idx, v :: rest =>
    (if is_model_filename v then
      match v with
      | .str s =>
        match try_resolve_model_path env s cats with
        | some (category, full_path) =>
          [{ node_id := node_id, node_type := node_type, widget_index := .idx idx,
             original_path := s, category := category, full_path := some full_path,
             file_exists := env.pathExists full_path }]
        | none =>
          [{ node_id := node_id, node_type := node_type, widget_index := .idx idx,
             original_path := s, category := orUnknown hint, full_path := none,
             file_exists := false }]
      | _ => []
    else []) ++ graphWidgetRefs env node_id node_type hint cats (idx + 1) rest

/-- Model of `workflow_analyzer.get_node_model_info_graph` for one node (`AttributeError`
for non-dict nodes, `TypeError` from the hint lookup for unhashable node
types or from iterating a non-iterable `widgets_values`). -/
def get_node_model_info_graph (env : Env) (node : Json) : Except PyErr (List ModelRef) :=
  match node with
  | .obj kvs =>
    let node_id := jlookupD kvs (pstr "id") .null
    let node_type := jlookupD kvs (pstr "type") (.str [])
    let widgets_values := jlookupD kvs (pstr "widgets_values") (.arr [])
    if !jtruthy widgets_values then .ok []
    else do
      let hint ← hintLookup node_type
      let vals ← jsonEnumerate widgets_values
      .ok (graphWidgetRefs env node_id node_type hint (catsOfHint hint) 0 vals)
  | _ => .error .attributeError

/-- The `for field_name, value in inputs.items()` loop of
`get_node_model_info_api`: string-valued fields qualifying by field name
(known model field, or `*_name`) or by extension. -/
def apiFieldRefs (env : Env) (node_id : List Char) (class_type : Json)
    (hint : Option (List Char)) (cats : Option (List (List Char))) :
    List (List Char × Json) → List ModelRef
  | [] => []
  | (field_name, value) :: rest =>
    (match value with
     | .str s =>
       if MODEL_INPUT_FIELDS.contains (lowerStr field_name) ||
          (pstr "_name").isSuffixOf (lowerStr field_name) ||
          is_model_filename (.str s) then
         match try_resolve_model_path env s cats with
         | some (category, full_path) =>
           [{ node_id := .str node_id, node_type := class_type,
              widget_index := .field field_name, field_name := some field_name,
              original_path := s, category := category, full_path := some full_path,
              file_exists := env.pathExists full_path }]
         | none =>
           [{ node_id := .str node_id, node_type := class_type,
              widget_index := .field field_name, field_name := some field_name,
              original_path := s, category := orUnknown hint, full_path := none,
              file_exists := false }]
       else []
     | _ => []) ++ apiFieldRefs env node_id class_type hint cats rest

/-- Model of `workflow_analyzer.get_node_model_info_api` for one node. -/
def get_node_model_info_api (env : Env) (node_id : List Char) (node_data : Json) :
    Except PyErr (List ModelRef) :=
  match node_data with
  | .obj kvs =>
    let class_type := jlookupD kvs (pstr "class_type") (.str [])
    let inputs := jlookupD kvs (pstr "inputs") (.obj [])
    if !jtruthy inputs then .ok []
    else do
      let hint ← hintLookup class_type
      match inputs with
      | .obj ikvs => .ok (apiFieldRefs env node_id class_type hint (catsOfHint hint) ikvs)
      | _ => .error .attributeError
  | _ => .error .attributeError

/-- Model of `workflow_analyzer.detect_workflow_format` on a mapping document. -/
def detectObj (kvs : List (List Char × Json)) : List Char :=
  match alookup kvs (pstr "nodes") with
  | some (.arr _) => pstr "graph"
  | _ =>
    if kvs.any (fun kv =>
        match kv.2 with
        | .obj o => (alookup o (pstr "class_type")).isSome && (alookup o (pstr "inputs")).isSome
        | _ => false)
    then pstr "api" else pstr "unknown"

/-- The exception `detect_workflow_format` raises on a non-mapping document:
for a list, the `nodes in doc` membership test succeeds, and then either the
subscript `doc[nodes]` raises `TypeError` (when the string `nodes` is an
element) or `.items()` raises
`AttributeError`; for a string, either subscripting or `.items()` raises; for
scalars, `in` itself raises `TypeError`. -/
def nonMappingErr : Json → PyErr
  | .arr xs =>
    if xs.any (fun j => match j with | .str s => s = pstr "nodes" | _ => false)
    then .typeError else .attributeError
  | .str s => if hasSub (pstr "nodes") s then .typeError else .attributeError
  | _ => .typeError

/-- Model of `workflow_analyzer.detect_workflow_format` (raises on non-mappings). -/
def detect_workflow_format : Json → Except PyErr (List Char)
  | .obj kvs => .ok (detectObj kvs)
  | j => .error (nonMappingErr j)

/-- Whether a JSON value is a mapping. -/
def isObj : Json → Bool
  | .obj _ => true
  | _ => false

/-- One iteration of the `try: ... except: continue` graph-node loop of
`analyze_workflow_models`.  When `get_node_model_info_graph` raises, the handler
logs a warning whose f-string message evaluates `node.get('id', 'unknown')`
before the `continue` runs: on a mapping node that succeeds and the node is
skipped, but on a non-mapping node the attribute access raises
`AttributeError` a second time, inside the handler, and that exception
propagates and aborts the whole analysis. -/
def graphNodeStep (env : Env) (node : Json) : Except PyErr (List ModelRef) :=
  match get_node_model_info_graph env node with
  | .ok refs => .ok refs
  | .error _ =>
    match node with
    | .obj _ => .ok []
    | _ => .error .attributeError

/-- The graph-node loop of `analyze_workflow_models`: references accumulate
node by node, a failing mapping node is skipped, and a failing non-mapping
node escapes the handler (see `graphNodeStep`), losing the accumulated
references exactly as the raised exception does in the source. -/
def graphRefs (env : Env) : List Json → Except PyErr (List ModelRef)
  | [] => .ok []
  | n :: rest =>
    match graphNodeStep env n with
    | .error e => .error e
    | .ok refs =>
      match graphRefs env rest with
      | .error e => .error e
      | .ok restRefs => .ok (refs ++ restRefs)

/-- Marking of references found inside a subgraph. -/
def markSubgraph (sgId sgName : Json) (r : ModelRef) : ModelRef :=
  { r with subgraph_id := some sgId, subgraph_name := some sgName,
           is_top_level := some false }

/-- The per-subgraph body of `analyze_workflow_models`: the `.get` calls raise
`AttributeError` on non-dict subgraphs, iterating a non-iterable `nodes` value
raises, and the per-node extraction is `try/except`-protected — with the same
caveat as the top-level loop, since the handler at the subgraph level also
logs `node.get('id', 'unknown')` and so re-raises on non-mapping nodes. -/
def analyzeSubgraph (env : Env) (sg : Json) : Except PyErr (List ModelRef) :=
  match sg with
  | .obj o => do
    let sgId := jlookupD o (pstr "id") .null
    let sgName := jlookupD o (pstr "name") sgId
    let sgNodesJ := jlookupD o (pstr "nodes") (.arr [])
    let sgNodes ← jsonEnumerate sgNodesJ
    let refs ← graphRefs env sgNodes
    .ok (refs.map (markSubgraph sgId sgName))
  | _ => .error .attributeError

/-- Model of `workflow_analyzer.analyze_workflow_models`: detect the format, extract
per the format with single-node error recovery (which, per `graphNodeStep`,
only actually recovers for mapping nodes in the graph branches; the API-branch
handler logs only the dictionary key and never re-raises), then walk
`definitions.subgraphs` (whose own `.get`/iteration steps are *not*
`try/except`-protected in the source and so can raise). -/
def analyze_workflow_models (env : Env) (doc : Json) : Except PyErr (List ModelRef) :=
  match doc with
  | .obj kvs =>
    let fmt := detectObj kvs
    if fmt = pstr "api" then
      .ok (kvs.flatMap (fun kv =>
        match kv.2 with
        | .obj o =>
          if (alookup o (pstr "class_type")).isSome
          then ((get_node_model_info_api env kv.1 kv.2).toOption).getD [] else []
        | _ => []))
    else if fmt = pstr "graph" then do
      let nodesJ := jlookupD kvs (pstr "nodes") (.arr [])
      let nodes ← jsonEnumerate nodesJ
      let topRefs ← graphRefs env nodes
      let definitions := jlookupD kvs (pstr "definitions") (.obj [])
      match definitions with
      | .obj dkvs => do
        let subgraphsJ := jlookupD dkvs (pstr "subgraphs") (.arr [])
        let subs ← jsonEnumerate subgraphsJ
        let subRefs ← subs.mapM (analyzeSubgraph env)
        .ok (topRefs ++ subRefs.flatten)
      | _ => .error .attributeError
    else .ok []
  | j => .error (nonMappingErr j)

/-- Model of `workflow_analyzer.identify_missing_models`: filter to `exists == false`. -/
def identify_missing_models (workflow_models : List ModelRef) : List ModelRef :=
  workflow_models.filter (fun r => !r.file_exists)

/-- Modelled from the spec (§4.4 GraphFormatDetector), for comparison with the
source function `detect_workflow_format`: "If document has a key `nodes` whose value
is a sequence → graph.  Else, if any top-level value is itself a mapping
containing both a type-tag field and an inputs-mapping field → api.  Else →
unknown."  (The type-tag field and the inputs-mapping field are the fields
named `class_type` and `inputs`.) -/
def specDetectObj (kvs : List (List Char × Json)) : List Char :=
  if (alookup kvs (pstr "nodes")).any (fun v => match v with | .arr _ => true | _ => false)
  then pstr "graph"
  else if kvs.any (fun kv =>
      match kv.2 with
      | .obj o => (alookup o (pstr "class_type")).isSome && (alookup o (pstr "inputs")).isSome
      | _ => false)
  then pstr "api" else pstr "unknown"

/-- A concrete environment in which nothing resolves and no path exists
(used to instantiate environment-generic theorems). -/
def env0 : Env := ⟨fun _ _ => none, fun _ => false⟩

example : get_node_model_info_graph env0
    (.obj [(pstr "widgets_values",
            .arr [.str (pstr "foo.txt"), .str (pstr "bar.safetensors")])]) =
    .ok [{ node_id := .null, node_type := .str [], widget_index := .idx 1,
           original_path := pstr "bar.safetensors", category := pstr "unknown",
           full_path := none, file_exists := false }] := rfl

example : analyze_workflow_models env0 (.arr []) = .error .attributeError := rfl

example : detect_workflow_format (.obj [(pstr "nodes", .arr [])]) = .ok (pstr "graph") := rfl

/-!
### Lemmas about `find_matches` (claims C1 and C2)
-/

/-- Descending order by similarity, the sort relation of `find_matches`. -/
def simGE (x y : MatchEntry) : Prop := y.similarity ≤ x.similarity

theorem mem_insertDesc {x e : MatchEntry} {l : List MatchEntry} :
    x ∈ insertDesc e l ↔ x = e ∨ x ∈ l := by
  induction l with
  | nil => simp [insertDesc]
  | cons f r ih =>
    by_cases h : f.similarity < e.similarity
    · simp [insertDesc, h]
    · simp only [insertDesc, if_neg h, List.mem_cons, ih]
      tauto

theorem insertDesc_pairwise {e : MatchEntry} {l : List MatchEntry}
    (h : l.Pairwise simGE) : (insertDesc e l).Pairwise simGE := by
  induction l with
  | nil => simp [insertDesc, simGE]
  | cons f r ih =>
    rcases List.pairwise_cons.mp h with ⟨hf, hr⟩
    by_cases hc : f.similarity < e.similarity
    · simp only [insertDesc, if_pos hc]
      refine List.pairwise_cons.mpr ⟨?_, h⟩
      intro y hy
      rcases List.mem_cons.mp hy with rfl | hy
      · exact le_of_lt hc
      · exact le_trans (hf y hy) (le_of_lt hc)
    · simp only [insertDesc, if_neg hc]
      refine List.pairwise_cons.mpr ⟨?_, ih hr⟩
      intro y hy
      rcases mem_insertDesc.mp hy with rfl | hy
      · exact le_of_not_lt hc
      · exact hf y hy

theorem sortDesc_aux_pairwise (l : List MatchEntry) :
    ∀ acc : List MatchEntry, acc.Pairwise simGE →
      (l.foldl (fun acc e => insertDesc e acc) acc).Pairwise simGE := by
  induction l with
  | nil => intro acc hacc; exact hacc
  | cons e r ih => intro acc hacc; exact ih _ (insertDesc_pairwise hacc)

theorem sortDesc_pairwise (l : List MatchEntry) : (sortDesc l).Pairwise simGE :=
  sortDesc_aux_pairwise l [] List.Pairwise.nil

theorem mem_sortDesc_aux (x : MatchEntry) (l : List MatchEntry) :
    ∀ acc : List MatchEntry,
      x ∈ l.foldl (fun acc e => insertDesc e acc) acc ↔ x ∈ acc ∨ x ∈ l := by
  induction l with
  | nil => intro acc; simp
  | cons e r ih =>
    intro acc
    simp only [List.foldl_cons, ih, mem_insertDesc, List.mem_cons]
    tauto

theorem mem_sortDesc {x : MatchEntry} {l : List MatchEntry} :
    x ∈ sortDesc l ↔ x ∈ l := by
  simpa using mem_sortDesc_aux x l []

/-- What `processCandidate` guarantees about any entry it emits: the threshold
is met, the filename is the derived candidate filename, similarity is 1 iff
the normalized forms coincide, and otherwise similarity is capped at 0.999. -/
theorem processCandidate_spec {tf tn : List Char} {th : ℚ} {c : Candidate}
    {e : MatchEntry} (h : processCandidate tf tn th c = some e) :
    th ≤ e.similarity ∧ e.filename = candidateFilename c ∧
    (e.similarity = 1 ↔ tn = normalize_filename e.filename) ∧
    (tn ≠ normalize_filename e.filename → e.similarity ≤ 999 / 1000) := by
  unfold processCandidate at h
  by_cases hcf : candidateFilename c = []
  · simp [hcf] at h
  · simp only [if_neg hcf] at h
    by_cases hn : tn = normalize_filename (candidateFilename c)
    · simp only [if_pos hn] at h
      by_cases hth : th ≤ (1 : ℚ)
      · simp only [if_pos hth, Option.some.injEq] at h
        subst h
        refine ⟨hth, rfl, ?_, ?_⟩
        · simpa using hn
        · intro hcontra; exact absurd hn hcontra
      · simp [if_neg hth] at h
    · simp only [if_neg hn] at h
      set m := (if calculate_similarity_with_normalization tf (candidateFilename c) <
          calculate_similarity_with_normalization (splitext tf).1
            (splitext (candidateFilename c)).1 then
          calculate_similarity_with_normalization (splitext tf).1
            (splitext (candidateFilename c)).1
        else calculate_similarity_with_normalization tf (candidateFilename c)) with hm
      set s := (if 999 / 1000 ≤ m then (999 : ℚ) / 1000 else m) with hs
      have hcap : s ≤ 999 / 1000 ∨ s = m := by
        rw [hs]; split
        · exact Or.inl le_rfl
        · exact Or.inr rfl
      have hsle : s ≤ 999 / 1000 := by
        rw [hs]; split
        · exact le_rfl
        · next hlt => exact le_of_lt (lt_of_not_le hlt)
      by_cases hth : th ≤ s
      · simp only [if_pos hth, Option.some.injEq] at h
        subst h
        refine ⟨hth, rfl, ?_, fun _ => hsle⟩
        constructor
        · intro h1
          exfalso
          have : (1 : ℚ) ≤ 999 / 1000 := h1 ▸ hsle
          norm_num at this
        · intro hcontra; exact absurd hcontra hn
      · simp [if_neg hth] at h

/-- Any member of the `find_matches` result arises from `processCandidate`. -/
theorem mem_find_matches {t : List Char} {cs : List Candidate} {th : ℚ}
    {mr : Nat} {e : MatchEntry} (h : e ∈ find_matches t cs th mr) :
    ∃ c ∈ cs, processCandidate (basename t) (normalize_filename (basename t)) th c = some e := by
  unfold find_matches at h
  have h1 : e ∈ sortDesc (cs.filterMap
      (processCandidate (basename t) (normalize_filename (basename t)) th)) :=
    List.take_subset _ _ h
  have h2 := mem_sortDesc.mp h1
  exact List.mem_filterMap.mp h2

/-- Claim C1: an entry of `find_matches` has similarity exactly 1 iff the
normalized basename of the target equals the normalized candidate filename;
whenever the normalized forms differ the similarity is at most 0.999. -/
theorem find_matches_exact_iff_normalized (t : List Char) (cs : List Candidate)
    (th : ℚ) (mr : Nat) (e : MatchEntry) (h : e ∈ find_matches t cs th mr) :
    (e.similarity = 1 ↔
      normalize_filename (basename t) = normalize_filename e.filename) ∧
    (normalize_filename (basename t) ≠ normalize_filename e.filename →
      e.similarity ≤ 999 / 1000) := by
  obtain ⟨c, _, hc⟩ := mem_find_matches h
  obtain ⟨-, -, hiff, hcap⟩ := processCandidate_spec hc
  exact ⟨hiff, hcap⟩

/-- Claim C2: `find_matches` results are sorted non-increasing by similarity,
have length at most `max_results`, meet the threshold, and `max_results = 0`
yields the empty list. -/
theorem find_matches_sorted_bounded_thresholded (t : List Char)
    (cs : List Candidate) (th : ℚ) (mr : Nat) :
    (find_matches t cs th mr).Pairwise simGE ∧
    (find_matches t cs th mr).length ≤ mr ∧
    (∀ e ∈ find_matches t cs th mr, th ≤ e.similarity) ∧
    find_matches t cs th 0 = [] := by
  refine ⟨?_, ?_, ?_, ?_⟩
  · exact (sortDesc_pairwise _).sublist (List.take_sublist _ _)
  · exact List.length_take_le _ _
  · intro e he
    obtain ⟨c, _, hc⟩ := mem_find_matches he
    exact (processCandidate_spec hc).1
  · rfl

/-- The candidate dictionary mapping `filename` to `a.ckpt`, used to
instantiate the C1 theorem. -/
def candA : Candidate := { filename := some (pstr "a.ckpt") }

/-- The entry that `find_matches` produces for target `a.ckpt` and candidate
`candA` (an exact normalized
match, so similarity 1). -/
def entryA : MatchEntry :=
  { model := candA, filename := pstr "a.ckpt", similarity := 1,
    confidence := pyRound1 (1 * 100) }

example : find_matches (pstr "a.ckpt") [candA] 0 10 = [entryA] := rfl

/-- Witness for the C1 theorem at the concrete target `a.ckpt` and the
candidate `candA`. -/
theorem find_matches_exact_iff_normalized_witness :
    (entryA.similarity = 1 ↔
      normalize_filename (basename (pstr "a.ckpt")) = normalize_filename entryA.filename) ∧
    (normalize_filename (basename (pstr "a.ckpt")) ≠ normalize_filename entryA.filename →
      entryA.similarity ≤ 999 / 1000) :=
  find_matches_exact_iff_normalized (pstr "a.ckpt") [candA] 0 10 entryA
    ((show find_matches (pstr "a.ckpt") [candA] 0 10 = [entryA] from rfl) ▸
      List.mem_singleton_self entryA)

/-- Evaluation fact `round(1.0 * 100, 1) = 100.0`. -/
theorem pyRound1_one_hundred : pyRound1 ((1 : ℚ) * 100) = 100 := by
  unfold pyRound1
  norm_num

/-- The candidate dictionary of claim C9, with filename `-.pt`. -/
def candSep : Candidate := { filename := some (pstr "-.pt") }

/-- The entry that `find_matches` produces for target `_.ckpt` and candidate
`candSep`. -/
def entrySep : MatchEntry :=
  { model := candSep, filename := pstr "-.pt", similarity := 1,
    confidence := pyRound1 (1 * 100) }

/-- Claim C9: the distinct separator-only filenames `_.ckpt` and `-.pt`
both normalize to the empty string, so `find_matches` reports them as an
exact match with similarity 1.0 and confidence 100.0. -/
theorem separator_only_filenames_exact_match :
    pstr "_.ckpt" ≠ pstr "-.pt" ∧
    normalize_filename (pstr "_.ckpt") = [] ∧
    normalize_filename (pstr "-.pt") = [] ∧
    (find_matches (pstr "_.ckpt") [candSep] 0 10).map
      (fun e => (e.filename, e.similarity, e.confidence)) =
      [(pstr "-.pt", 1, 100)] := by
  refine ⟨by decide, by decide, by decide, ?_⟩
  rw [show find_matches (pstr "_.ckpt") [candSep] 0 10 = [entrySep] from rfl]
  simp only [List.map_cons, List.map_nil, entrySep, pyRound1_one_hundred]

/-!
### Soundness of the `SequenceMatcher` model (towards claim C3)

Every best block returned by `find_longest_match` stays inside its span and
matches equal slices of `a` and `b`; consequently the total matching size is
at most `min(len(a), len(b))`, with equality (on both sides) only when the
two strings coincide.
-/

/-- Invariant of a candidate best block for the span
`[alo, ahi) × [blo, bhi)`: in bounds, and the two slices agree. -/
def BestInv (a b : List Char) (alo ahi blo bhi : Nat) (bst : Best) : Prop :=
  alo ≤ bst.bi ∧ bst.bi + bst.bs ≤ ahi ∧ blo ≤ bst.bj ∧ bst.bj + bst.bs ≤ bhi ∧
  ∀ d < bst.bs, a.getD (bst.bi + d) ' ' = b.getD (bst.bj + d) ' '

/-- Invariant of a `j2len` row when the next index of `a` to scan is `s`
(so the row was produced while processing `s - 1`): a positive entry `k` at
`j` records a common run of length `k` ending at `a[s-1]`/`b[j]` that starts
no earlier than `alo`/`blo`.  For `s = alo` the invariant is vacuous, which
matches the initial empty row. -/
def RowInv (a b : List Char) (alo blo bhi s : Nat) (row : List Nat) : Prop :=
  ∀ j, 0 < row.getD j 0 →
    blo ≤ j ∧ j < bhi ∧ row.getD j 0 + blo ≤ j + 1 ∧ row.getD j 0 + alo ≤ s ∧
    ∀ d < row.getD j 0, a.getD (s - 1 - d) ' ' = b.getD (j - d) ' '

theorem newRow_getD (a b popular : List Char) (blo bhi i : Nat) (prev : List Nat)
    (j : Nat) :
    (newRow a b popular blo bhi i prev).getD j 0 =
      if j < bhi then
        (if hitB a b popular blo bhi i j then (if j = 0 then 0 else prev.getD (j - 1) 0) + 1
         else 0)
      else 0 := by
  unfold newRow
  by_cases hj : j < bhi
  · rw [if_pos hj, List.getD_eq_getElem _ _ (by simpa using hj)]
    simp [hj]
  · rw [if_neg hj, List.getD_eq_default]
    simpa using Nat.le_of_not_lt hj

theorem newRow_inv (a b popular : List Char) (alo blo bhi s : Nat)
    (prev : List Nat) (hs : alo ≤ s) (hprev : RowInv a b alo blo bhi s prev) :
    RowInv a b alo blo bhi (s + 1) (newRow a b popular blo bhi s prev) := by
  intro j hpos
  rw [newRow_getD] at hpos ⊢
  by_cases hj : j < bhi
  · rw [if_pos hj] at hpos ⊢
    by_cases hhit : hitB a b popular blo bhi s j
    · rw [if_pos hhit] at hpos ⊢
      have hble : blo ≤ j ∧ j < bhi ∧ b.getD j ' ' = a.getD s ' ' := by
        have := hhit
        unfold hitB at this
        simp only [Bool.and_eq_true, decide_eq_true_eq, beq_iff_eq, Bool.not_eq_true'] at this
        exact ⟨this.1.1.1, this.1.1.2, this.1.2⟩
      set p := (if j = 0 then 0 else prev.getD (j - 1) 0) with hpdef
      by_cases hppos : 0 < p
      · have hj0 : j ≠ 0 := by
          intro h
          rw [hpdef, if_pos h] at hppos
          omega
        have hpeq : p = prev.getD (j - 1) 0 := by rw [hpdef, if_neg hj0]
        obtain ⟨hb1, hb2, hb3, hb4, hb5⟩ := hprev (j - 1) (by omega)
        refine ⟨hble.1, hble.2.1, by omega, by omega, ?_⟩
        intro d hd
        rcases Nat.eq_zero_or_pos d with rfl | hdpos
        · simpa using hble.2.2.symm
        · have hd' : d - 1 < prev.getD (j - 1) 0 := by omega
          have := hb5 (d - 1) hd'
          have hs1 : 1 ≤ s := by omega
          have hia : s - 1 - (d - 1) = s + 1 - 1 - d := by omega
          have hjb : j - 1 - (d - 1) = j - d := by omega
          rwa [hia, hjb] at this
      · have hp0 : p = 0 := by omega
        refine ⟨hble.1, hble.2.1, by omega, by omega, ?_⟩
        intro d hd
        have : d = 0 := by omega
        subst this
        simpa using hble.2.2.symm
    · rw [if_neg hhit] at hpos
      exact absurd hpos (by omega)
  · rw [if_neg hj] at hpos
    exact absurd hpos (by omega)

theorem scanBest_inv (a b : List Char) (alo ahi blo bhi i : Nat) (row : List Nat)
    (hrow : RowInv a b alo blo bhi (i + 1) row) (hi : i < ahi) :
    ∀ (l : List Nat) (bst : Best), BestInv a b alo ahi blo bhi bst →
      BestInv a b alo ahi blo bhi
        (l.foldl (fun bst j =>
          let k := row.getD j 0
          if bst.bs < k then ⟨i + 1 - k, j + 1 - k, k⟩ else bst) bst) := by
  intro l
  induction l with
  | nil => intro bst hbst; exact hbst
  | cons j r ih =>
    intro bst hbst
    simp only [List.foldl_cons]
    by_cases hk : bst.bs < row.getD j 0
    · rw [if_pos hk]
      apply ih
      have hpos : 0 < row.getD j 0 := by omega
      obtain ⟨h1, h2, h3, h4, h5⟩ := hrow j hpos
      set k := row.getD j 0 with hkdef
      refine ⟨show alo ≤ i + 1 - k by omega, show i + 1 - k + k ≤ ahi by omega,
        show blo ≤ j + 1 - k by omega, show j + 1 - k + k ≤ bhi by omega, ?_⟩
      intro d hd
      have hd' : d < k := hd
      have := h5 (k - 1 - d) (by omega)
      have hia : i + 1 - 1 - (k - 1 - d) = i + 1 - k + d := by omega
      have hjb : j - (k - 1 - d) = j + 1 - k + d := by omega
      show a.getD (i + 1 - k + d) ' ' = b.getD (j + 1 - k + d) ' '
      rwa [hia, hjb] at this
    · rw [if_neg hk]
      exact ih bst hbst

theorem flmLoop_inv_aux (a b popular : List Char) (alo ahi blo bhi : Nat) :
    ∀ (cnt s : Nat) (prev : List Nat) (bst : Best),
      s + cnt ≤ ahi → alo ≤ s → RowInv a b alo blo bhi s prev →
      BestInv a b alo ahi blo bhi bst →
      BestInv a b alo ahi blo bhi
        (((List.range' s cnt).foldl
          (fun (st : List Nat × Best) i =>
            let row := newRow a b popular blo bhi i st.1
            (row, scanBest row i blo bhi st.2))
          (prev, bst)).2) := by
  intro cnt
  induction cnt with
  | zero => intro s prev bst _ _ _ hbst; exact hbst
  | succ cnt ih =>
    intro s prev bst hle hs hprev hbst
    show BestInv a b alo ahi blo bhi
      (((s :: List.range' (s + 1) cnt).foldl _ (prev, bst)).2)
    simp only [List.foldl_cons]
    apply ih (s + 1) _ _ (by omega) (by omega)
    · simpa using newRow_inv a b popular alo blo bhi s prev hs hprev
    · unfold scanBest
      exact scanBest_inv a b alo ahi blo bhi s _
        (newRow_inv a b popular alo blo bhi s prev hs hprev) (by omega) _ bst hbst

theorem flmLoop_inv (a b popular : List Char) (alo ahi blo bhi : Nat)
    (ha : alo ≤ ahi) (hb : blo ≤ bhi) :
    BestInv a b alo ahi blo bhi (flmLoop a b popular alo ahi blo bhi) := by
  unfold flmLoop
  apply flmLoop_inv_aux a b popular alo ahi blo bhi (ahi - alo) alo [] _ (by omega)
    le_rfl
  · intro j hj
    simp [List.getD] at hj
  · exact ⟨le_rfl, by simpa using ha, le_rfl, by simpa using hb,
      fun d hd => absurd (show d < 0 from hd) (by omega)⟩

theorem extendTop_inv (a b : List Char) (alo ahi blo bhi : Nat) :
    ∀ (fuel : Nat) (bst : Best), BestInv a b alo ahi blo bhi bst →
      BestInv a b alo ahi blo bhi (extendTop a b alo blo fuel bst) := by
  intro fuel
  induction fuel with
  | zero => intro bst hbst; exact hbst
  | succ fuel ih =>
    intro bst hbst
    unfold extendTop
    by_cases hc : alo < bst.bi ∧ blo < bst.bj ∧
        a.getD (bst.bi - 1) ' ' = b.getD (bst.bj - 1) ' '
    · rw [if_pos hc]
      apply ih
      obtain ⟨h1, h2, h3, h4, h5⟩ := hbst
      refine ⟨show alo ≤ bst.bi - 1 by omega, show bst.bi - 1 + (bst.bs + 1) ≤ ahi by omega,
        show blo ≤ bst.bj - 1 by omega, show bst.bj - 1 + (bst.bs + 1) ≤ bhi by omega, ?_⟩
      intro d hd
      have hd' : d < bst.bs + 1 := hd
      show a.getD (bst.bi - 1 + d) ' ' = b.getD (bst.bj - 1 + d) ' '
      rcases Nat.eq_zero_or_pos d with rfl | hdpos
      · simpa using hc.2.2
      · have := h5 (d - 1) (by omega)
        have hia : bst.bi - 1 + d = bst.bi + (d - 1) := by omega
        have hjb : bst.bj - 1 + d = bst.bj + (d - 1) := by omega
        rw [hia, hjb]
        exact this
    · rw [if_neg hc]
      exact hbst

theorem extendBot_inv (a b : List Char) (alo ahi blo bhi : Nat) :
    ∀ (fuel : Nat) (bst : Best), BestInv a b alo ahi blo bhi bst →
      BestInv a b alo ahi blo bhi (extendBot a b ahi bhi fuel bst) := by
  intro fuel
  induction fuel with
  | zero => intro bst hbst; exact hbst
  | succ fuel ih =>
    intro bst hbst
    unfold extendBot
    by_cases hc : bst.bi + bst.bs < ahi ∧ bst.bj + bst.bs < bhi ∧
        a.getD (bst.bi + bst.bs) ' ' = b.getD (bst.bj + bst.bs) ' '
    · rw [if_pos hc]
      apply ih
      obtain ⟨h1, h2, h3, h4, h5⟩ := hbst
      refine ⟨h1, show bst.bi + (bst.bs + 1) ≤ ahi by omega, h3,
        show bst.bj + (bst.bs + 1) ≤ bhi by omega, ?_⟩
      intro d hd
      have hd' : d < bst.bs + 1 := hd
      show a.getD (bst.bi + d) ' ' = b.getD (bst.bj + d) ' '
      rcases Nat.lt_succ_iff_lt_or_eq.mp hd' with hlt | heq
      · exact h5 d hlt
      · subst heq
        exact hc.2.2
    · rw [if_neg hc]
      exact hbst

theorem find_longest_match_inv (a b : List Char) (alo ahi blo bhi : Nat)
    (ha : alo ≤ ahi) (hb : blo ≤ bhi) :
    BestInv a b alo ahi blo bhi (find_longest_match a b alo ahi blo bhi) := by
  unfold find_longest_match
  exact extendBot_inv a b alo ahi blo bhi _ _
    (extendTop_inv a b alo ahi blo bhi _ _ (flmLoop_inv a b _ alo ahi blo bhi ha hb))

theorem sumSizes_append (x y : List (Nat × Nat × Nat)) :
    sumSizes (x ++ y) = sumSizes x + sumSizes y := by
  unfold sumSizes
  simp

theorem sumSizes_cons (p : Nat × Nat × Nat) (x : List (Nat × Nat × Nat)) :
    sumSizes (p :: x) = p.2.2 + sumSizes x := by
  unfold sumSizes
  simp

/-- Soundness of the block decomposition: the total matching size is bounded
by both span lengths, and saturating both bounds forces the two spans to
agree pointwise. -/
theorem matchingBlocksF_sound (a b : List Char) :
    ∀ (fuel alo ahi blo bhi : Nat), alo ≤ ahi → blo ≤ bhi →
      sumSizes (matchingBlocksF a b fuel alo ahi blo bhi) ≤ ahi - alo ∧
      sumSizes (matchingBlocksF a b fuel alo ahi blo bhi) ≤ bhi - blo ∧
      ((sumSizes (matchingBlocksF a b fuel alo ahi blo bhi) = ahi - alo ∧
        sumSizes (matchingBlocksF a b fuel alo ahi blo bhi) = bhi - blo) →
        ∀ d < sumSizes (matchingBlocksF a b fuel alo ahi blo bhi),
          a.getD (alo + d) ' ' = b.getD (blo + d) ' ') := by
  intro fuel
  induction fuel with
  | zero =>
    intro alo ahi blo bhi _ _
    simp only [matchingBlocksF, sumSizes, List.map_nil, List.sum_nil]
    exact ⟨by omega, by omega, fun _ d hd => absurd hd (by omega)⟩
  | succ fuel ih =>
    intro alo ahi blo bhi ha hb
    have hinv := find_longest_match_inv a b alo ahi blo bhi ha hb
    simp only [matchingBlocksF]
    set r := find_longest_match a b alo ahi blo bhi with hr
    obtain ⟨h1, h2, h3, h4, h5⟩ := hinv
    by_cases hz : r.bs = 0
    · simp only [if_pos hz, sumSizes, List.map_nil, List.sum_nil]
      exact ⟨by omega, by omega, fun _ d hd => absurd hd (by omega)⟩
    · rw [if_neg hz]
      rw [sumSizes_append, sumSizes_cons,
        show ((r.bi, r.bj, r.bs) : Nat × Nat × Nat).2.2 = r.bs from rfl]
      set Ml := sumSizes (if alo < r.bi ∧ blo < r.bj
        then matchingBlocksF a b fuel alo r.bi blo r.bj else []) with hMl
      set Mr := sumSizes (if r.bi + r.bs < ahi ∧ r.bj + r.bs < bhi
        then matchingBlocksF a b fuel (r.bi + r.bs) ahi (r.bj + r.bs) bhi else []) with hMr
      have hleft : Ml ≤ r.bi - alo ∧ Ml ≤ r.bj - blo ∧
          ((Ml = r.bi - alo ∧ Ml = r.bj - blo) →
            ∀ d < Ml, a.getD (alo + d) ' ' = b.getD (blo + d) ' ') := by
        rw [hMl]
        by_cases hg : alo < r.bi ∧ blo < r.bj
        · rw [if_pos hg]
          exact ih alo r.bi blo r.bj (by omega) (by omega)
        · rw [if_neg hg]
          simp only [sumSizes, List.map_nil, List.sum_nil]
          exact ⟨by omega, by omega, fun _ d hd => absurd hd (by omega)⟩
      have hright : Mr ≤ ahi - (r.bi + r.bs) ∧ Mr ≤ bhi - (r.bj + r.bs) ∧
          ((Mr = ahi - (r.bi + r.bs) ∧ Mr = bhi - (r.bj + r.bs)) →
            ∀ d < Mr, a.getD (r.bi + r.bs + d) ' ' = b.getD (r.bj + r.bs + d) ' ') := by
        rw [hMr]
        by_cases hg : r.bi + r.bs < ahi ∧ r.bj + r.bs < bhi
        · rw [if_pos hg]
          exact ih (r.bi + r.bs) ahi (r.bj + r.bs) bhi (by omega) (by omega)
        · rw [if_neg hg]
          simp only [sumSizes, List.map_nil, List.sum_nil]
          exact ⟨by omega, by omega, fun _ d hd => absurd hd (by omega)⟩
      refine ⟨by omega, by omega, ?_⟩
      rintro ⟨hea, heb⟩ d hd
      have hMl_a : Ml = r.bi - alo := by omega
      have hMl_b : Ml = r.bj - blo := by omega
      have hMr_a : Mr = ahi - (r.bi + r.bs) := by omega
      have hMr_b : Mr = bhi - (r.bj + r.bs) := by omega
      by_cases hd1 : d < Ml
      · exact hleft.2.2 ⟨hMl_a, hMl_b⟩ d hd1
      · by_cases hd2 : d < Ml + r.bs
        · have := h5 (d - Ml) (by omega)
          have hia : r.bi + (d - Ml) = alo + d := by omega
          have hjb : r.bj + (d - Ml) = blo + d := by omega
          rwa [hia, hjb] at this
        · have := hright.2.2 ⟨hMr_a, hMr_b⟩ (d - Ml - r.bs) (by omega)
          have hia : r.bi + r.bs + (d - Ml - r.bs) = alo + d := by omega
          have hjb : r.bj + r.bs + (d - Ml - r.bs) = blo + d := by omega
          rwa [hia, hjb] at this

theorem seqMatcherM_le (a b : List Char) :
    seqMatcherM a b ≤ a.length ∧ seqMatcherM a b ≤ b.length := by
  have := matchingBlocksF_sound a b (a.length + 1) 0 a.length 0 b.length
    (by omega) (by omega)
  unfold seqMatcherM
  exact ⟨by omega, by omega⟩

theorem seqMatcherM_saturated (a b : List Char)
    (ha : seqMatcherM a b = a.length) (hb : seqMatcherM a b = b.length) :
    a = b := by
  have hs := matchingBlocksF_sound a b (a.length + 1) 0 a.length 0 b.length
    (by omega) (by omega)
  unfold seqMatcherM at ha hb
  have hlen : a.length = b.length := by omega
  apply List.ext_getElem hlen
  intro i hi1 hi2
  have hcov := hs.2.2 ⟨by omega, by omega⟩ i (by omega)
  rw [Nat.zero_add] at hcov
  rwa [List.getD_eq_getElem _ _ hi1, List.getD_eq_getElem _ _ hi2] at hcov

/-- Upper bound `ratio() <= 1.0`. -/
theorem calculate_similarity_le_one (a b : List Char) :
    calculate_similarity a b ≤ 1 := by
  unfold calculate_similarity
  by_cases h0 : a.length + b.length = 0
  · rw [if_pos h0]
  · rw [if_neg h0]
    have hM := seqMatcherM_le a b
    have hpos : (0 : ℚ) < (a.length : ℚ) + (b.length : ℚ) := by
      have h2 : 0 < a.length + b.length := Nat.pos_of_ne_zero h0
      exact_mod_cast h2
    rw [div_le_one hpos]
    have h3 : (2 * seqMatcherM a b : ℚ) ≤ ((a.length : ℚ) + (b.length : ℚ)) := by
      have h2 : 2 * seqMatcherM a b ≤ a.length + b.length := by omega
      exact_mod_cast h2
    simpa using h3

/-- Strict bound `ratio() < 1.0` whenever the two strings differ. -/
theorem calculate_similarity_lt_one (a b : List Char) (hne : a ≠ b) :
    calculate_similarity a b < 1 := by
  unfold calculate_similarity
  by_cases h0 : a.length + b.length = 0
  · exfalso
    apply hne
    have ha : a = [] := List.length_eq_zero.mp (by omega)
    have hb : b = [] := List.length_eq_zero.mp (by omega)
    rw [ha, hb]
  · rw [if_neg h0]
    have hM := seqMatcherM_le a b
    have hstrict : 2 * seqMatcherM a b < a.length + b.length := by
      rcases Nat.lt_or_ge (2 * seqMatcherM a b) (a.length + b.length) with h | h
      · exact h
      · exfalso
        have hea : seqMatcherM a b = a.length := by omega
        have heb : seqMatcherM a b = b.length := by omega
        exact hne (seqMatcherM_saturated a b hea heb)
    have hpos : (0 : ℚ) < (a.length : ℚ) + (b.length : ℚ) := by
      have h2 : 0 < a.length + b.length := Nat.pos_of_ne_zero h0
      exact_mod_cast h2
    rw [div_lt_one hpos]
    have h3 : (2 * seqMatcherM a b : ℚ) < ((a.length : ℚ) + (b.length : ℚ)) := by
      exact_mod_cast hstrict
    simpa using h3

theorem calculate_token_similarity_le_one (t1 t2 : List (List Char)) :
    calculate_token_similarity t1 t2 ≤ 1 := by
  unfold calculate_token_similarity
  split
  · norm_num
  · split
    · norm_num
    · split
      · next h => exact h
      · exact le_rfl

/-- Claim C3: `calculate_similarity_with_normalization` returns exactly 1 iff
the two normalized forms coincide; when they differ, the 70/30 blend of token
and character similarity is strictly below 1. -/
theorem similarity_one_iff_normalized (s1 s2 : List Char) :
    (calculate_similarity_with_normalization s1 s2 = 1 ↔
      normalize_filename s1 = normalize_filename s2) ∧
    (normalize_filename s1 ≠ normalize_filename s2 →
      calculate_token_similarity (tokenize_model_name s1) (tokenize_model_name s2) * (7 / 10) +
        calculate_similarity (normalize_filename s1) (normalize_filename s2) * (3 / 10) < 1) := by
  have hblend : normalize_filename s1 ≠ normalize_filename s2 →
      calculate_token_similarity (tokenize_model_name s1) (tokenize_model_name s2) * (7 / 10) +
        calculate_similarity (normalize_filename s1) (normalize_filename s2) * (3 / 10) < 1 := by
    intro hne
    have ht := calculate_token_similarity_le_one (tokenize_model_name s1) (tokenize_model_name s2)
    have hc := calculate_similarity_lt_one (normalize_filename s1) (normalize_filename s2) hne
    have h1 : calculate_token_similarity (tokenize_model_name s1) (tokenize_model_name s2) *
        (7 / 10) ≤ 1 * (7 / 10) :=
      mul_le_mul_of_nonneg_right ht (by norm_num)
    have h2 : calculate_similarity (normalize_filename s1) (normalize_filename s2) *
        (3 / 10) < 1 * (3 / 10) :=
      mul_lt_mul_of_pos_right hc (by norm_num)
    linarith
  have hcsm : normalize_filename s1 ≠ normalize_filename s2 →
      calculate_similarity_with_normalization s1 s2 =
        calculate_token_similarity (tokenize_model_name s1) (tokenize_model_name s2) * (7 / 10) +
          calculate_similarity (normalize_filename s1) (normalize_filename s2) * (3 / 10) := by
    intro hne
    unfold calculate_similarity_with_normalization
    dsimp only
    rw [if_neg hne]
  refine ⟨⟨?_, ?_⟩, hblend⟩
  · intro h1
    by_contra hne
    rw [hcsm hne] at h1
    have := hblend hne
    linarith
  · intro heq
    unfold calculate_similarity_with_normalization
    dsimp only
    rw [if_pos heq]

/-- Witness for the C3 theorem at `a.ckpt` vs `b.ckpt` (distinct normalized
forms). -/
theorem similarity_one_iff_normalized_witness :
    normalize_filename (pstr "a.ckpt") ≠ normalize_filename (pstr "b.ckpt") ∧
    calculate_token_similarity (tokenize_model_name (pstr "a.ckpt"))
        (tokenize_model_name (pstr "b.ckpt")) * (7 / 10) +
      calculate_similarity (normalize_filename (pstr "a.ckpt"))
        (normalize_filename (pstr "b.ckpt")) * (3 / 10) < 1 :=
  ⟨by decide, (similarity_one_iff_normalized (pstr "a.ckpt") (pstr "b.ckpt")).2 (by decide)⟩

/-!
### Scenario A (claim C7): `sd_xl_base_1.0.safetensors` vs `sd_xl_base_1.safetensors`
-/

/-- The candidate dictionary of Scenario A, with filename
`sd_xl_base_1.safetensors`. -/
def candB : Candidate := { filename := some (pstr "sd_xl_base_1.safetensors") }

/-- The entry Scenario A produces: the extension-stripped stems normalize
identically, so the stem comparison short-circuits to 1.0 and the cap fires. -/
def entryB : MatchEntry :=
  { model := candB, filename := pstr "sd_xl_base_1.safetensors",
    similarity := 999 / 1000, confidence := pyRound1 (999 / 1000 * 100) }

theorem scenarioA_char_sim :
    calculate_similarity (pstr "sd xl base 1.0") (pstr "sd xl base 1") = 12 / 13 := by
  unfold calculate_similarity
  rw [if_neg (by decide),
    show seqMatcherM (pstr "sd xl base 1.0") (pstr "sd xl base 1") = 12 from by decide,
    show (pstr "sd xl base 1.0").length = 14 from by decide,
    show (pstr "sd xl base 1").length = 12 from by decide]
  norm_num

theorem scenarioA_token_sim :
    calculate_token_similarity (tokenize_model_name (pstr "sd_xl_base_1.0.safetensors"))
      (tokenize_model_name (pstr "sd_xl_base_1.safetensors")) = 1 := by
  simp only [calculate_token_similarity, jaccardQ, orderScore,
    show tokenize_model_name (pstr "sd_xl_base_1.0.safetensors") =
      [pstr "sd", pstr "xl", pstr "base", pstr "1", pstr "0"] from by decide,
    show tokenize_model_name (pstr "sd_xl_base_1.safetensors") =
      [pstr "sd", pstr "xl", pstr "base", pstr "1"] from by decide,
    show setInterCard [pstr "sd", pstr "xl", pstr "base", pstr "1", pstr "0"]
      [pstr "sd", pstr "xl", pstr "base", pstr "1"] = 4 from by decide,
    show setUnionCard [pstr "sd", pstr "xl", pstr "base", pstr "1", pstr "0"]
      [pstr "sd", pstr "xl", pstr "base", pstr "1"] = 5 from by decide,
    show orderCounts [pstr "sd", pstr "xl", pstr "base", pstr "1", pstr "0"]
      [pstr "sd", pstr "xl", pstr "base", pstr "1"] = (3, 3) from by decide]
  norm_num
  decide

theorem scenarioA_s1 :
    calculate_similarity_with_normalization (pstr "sd_xl_base_1.0.safetensors")
      (pstr "sd_xl_base_1.safetensors") = 127 / 130 := by
  unfold calculate_similarity_with_normalization
  dsimp only
  rw [if_neg (by decide :
    ¬ normalize_filename (pstr "sd_xl_base_1.0.safetensors") =
      normalize_filename (pstr "sd_xl_base_1.safetensors"))]
  rw [scenarioA_token_sim,
    show normalize_filename (pstr "sd_xl_base_1.0.safetensors") = pstr "sd xl base 1.0"
      from by decide,
    show normalize_filename (pstr "sd_xl_base_1.safetensors") = pstr "sd xl base 1"
      from by decide,
    scenarioA_char_sim]
  norm_num

theorem scenarioA_s2 :
    calculate_similarity_with_normalization
      (splitext (pstr "sd_xl_base_1.0.safetensors")).1
      (splitext (pstr "sd_xl_base_1.safetensors")).1 = 1 := by
  rw [show (splitext (pstr "sd_xl_base_1.0.safetensors")).1 = pstr "sd_xl_base_1.0"
      from by decide,
    show (splitext (pstr "sd_xl_base_1.safetensors")).1 = pstr "sd_xl_base_1"
      from by decide]
  unfold calculate_similarity_with_normalization
  dsimp only
  rw [if_pos (by decide :
    normalize_filename (pstr "sd_xl_base_1.0") = normalize_filename (pstr "sd_xl_base_1"))]

theorem scenarioA_proc :
    processCandidate (pstr "sd_xl_base_1.0.safetensors") (pstr "sd xl base 1.0") 0 candB =
      some entryB := by
  simp only [processCandidate]
  rw [if_neg (by decide : ¬ candidateFilename candB = [])]
  rw [show candidateFilename candB = pstr "sd_xl_base_1.safetensors" from by decide]
  rw [if_neg (by decide :
    ¬ pstr "sd xl base 1.0" = normalize_filename (pstr "sd_xl_base_1.safetensors"))]
  rw [scenarioA_s1, scenarioA_s2]
  rw [if_pos (by norm_num : (127 : ℚ) / 130 < 1)]
  rw [if_pos (by norm_num : (999 : ℚ) / 1000 ≤ 1)]
  rw [if_pos (by norm_num : (0 : ℚ) ≤ 999 / 1000)]
  rfl

theorem scenarioA_eval :
    find_matches (pstr "sd_xl_base_1.0.safetensors") [candB] 0 10 = [entryB] := by
  unfold find_matches
  dsimp only
  rw [show basename (pstr "sd_xl_base_1.0.safetensors") = pstr "sd_xl_base_1.0.safetensors"
      from by decide,
    show normalize_filename (pstr "sd_xl_base_1.0.safetensors") = pstr "sd xl base 1.0"
      from by decide]
  simp only [List.filterMap_cons, List.filterMap_nil, scenarioA_proc]
  rfl

/-- Counterexample to claim C7 as stated: for Scenario A the reported
similarity is exactly 0.999 (not strictly below it) — the extension-stripped
stems normalize to the same string, so the stem comparison short-circuits to
1.0 and the non-exact cap clamps it to 0.999. -/
theorem scenarioA_reports_cap_counterexample :
    (find_matches (pstr "sd_xl_base_1.0.safetensors") [candB] 0 10).map
      (fun e => e.similarity) = [999 / 1000] ∧
    ¬ (∀ e ∈ find_matches (pstr "sd_xl_base_1.0.safetensors") [candB] 0 10,
        e.similarity < 999 / 1000) := by
  constructor
  · rw [scenarioA_eval]
    rfl
  · intro h
    have := h entryB (by rw [scenarioA_eval]; exact List.mem_singleton_self entryB)
    exact absurd this (by norm_num [entryB])

/-- Claim C7 as amended: for Scenario A, `find_matches` reports a similarity
strictly greater than 0.5 and exactly equal to the 0.999 cap. -/
theorem scenarioA_similarity_exact_cap :
    (find_matches (pstr "sd_xl_base_1.0.safetensors") [candB] 0 10).map
      (fun e => e.similarity) = [999 / 1000] ∧
    (1 / 2 : ℚ) < 999 / 1000 ∧ (999 / 1000 : ℚ) ≤ 999 / 1000 := by
  refine ⟨?_, by norm_num, le_rfl⟩
  rw [scenarioA_eval]
  rfl

/-!
### Claim C10: case-insensitive extension matching

`is_model_filename` lowercases the whole value before `splitext`; since
`Char.toLower` never produces or consumes `.` or `/`, this is the same as
lowercasing the extension of the original value.
-/

theorem charToNat_ofNat (n : Nat) (h : n < 55296) : (Char.ofNat n).toNat = n := by
  rw [Char.ofNat, dif_pos (Or.inl h)]
  simp [Char.ofNatAux, Char.toNat, UInt32.toNat, BitVec.toNat_ofNatLt]

/-- For a target character outside the lowercase-letter image and the
uppercase range, `toLower x = c0` iff `x = c0`. -/
theorem toLower_eq_iff (x c0 : Char)
    (hc0 : c0.toNat < 65 ∨ (90 < c0.toNat ∧ c0.toNat < 97) ∨ 122 < c0.toNat) :
    x.toLower = c0 ↔ x = c0 := by
  unfold Char.toLower
  dsimp only
  by_cases h : x.toNat ≥ 65 ∧ x.toNat ≤ 90
  · rw [if_pos h]
    constructor
    · intro heq
      exfalso
      have h1 : (Char.ofNat (x.toNat + 32)).toNat = x.toNat + 32 :=
        charToNat_ofNat _ (by omega)
      rw [heq] at h1
      omega
    · intro heq
      subst heq
      exfalso
      omega
  · rw [if_neg h]

theorem toLower_dot (x : Char) : x.toLower = '.' ↔ x = '.' :=
  toLower_eq_iff x '.' (by decide)

theorem toLower_slash (x : Char) : x.toLower = '/' ↔ x = '/' :=
  toLower_eq_iff x '/' (by decide)

theorem rfindIdx_lowerStr (s : List Char) (c0 : Char)
    (hiff : ∀ x : Char, x.toLower = c0 ↔ x = c0) :
    rfindIdx (lowerStr s) c0 = rfindIdx s c0 := by
  induction s with
  | nil => rfl
  | cons x r ih =>
    show rfindIdx (x.toLower :: lowerStr r) c0 = _
    unfold rfindIdx
    rw [ih]
    cases hr : rfindIdx r c0 with
    | some i => rfl
    | none => simp [hiff x]

theorem splitext_lowerStr (p : List Char) :
    splitext (lowerStr p) = (lowerStr (splitext p).1, lowerStr (splitext p).2) := by
  unfold splitext
  rw [rfindIdx_lowerStr p '/' toLower_slash, rfindIdx_lowerStr p '.' toLower_dot]
  cases hdot : rfindIdx p '.' with
  | none => rfl
  | some d =>
    dsimp only
    have hslice : ∀ fs : Nat,
        (((lowerStr p).drop fs).take (d - fs)).any (fun c => c ≠ '.') =
          ((p.drop fs).take (d - fs)).any (fun c => c ≠ '.') := by
      intro fs
      unfold lowerStr
      rw [← List.map_drop, ← List.map_take, List.any_map]
      congr 1
      funext c
      simp only [Function.comp]
      by_cases hc : c = '.'
      · simp [hc]
      · have hlc : ¬ c.toLower = '.' := fun h1 => hc ((toLower_dot c).mp h1)
        simp [hc, hlc]
    rw [hslice]
    split
    · show (List.take d (lowerStr p), List.drop d (lowerStr p)) = _
      unfold lowerStr
      rw [List.map_take, List.map_drop]
    · rfl

theorem splitext_snd_lowerStr (p : List Char) :
    (splitext (lowerStr p)).2 = lowerStr (splitext p).2 := by
  rw [splitext_lowerStr]

/-- Claim C10: extension matching is case-insensitive — any string whose
lowercased extension is a known model extension satisfies
`is_model_filename` (e.g. `BAR.SAFETENSORS`), while the configured
extension set itself contains only lowercase entries. -/
theorem model_extension_case_insensitive :
    (∀ s : List Char, lowerStr (splitext s).2 ∈ MODEL_EXTENSIONS →
      is_model_filename (.str s) = true) ∧
    is_model_filename (.str (pstr "BAR.SAFETENSORS")) = true ∧
    MODEL_EXTENSIONS.all (fun e => lowerStr e = e) = true := by
  refine ⟨?_, by decide, by decide⟩
  intro s hext
  show MODEL_EXTENSIONS.contains (splitext (lowerStr s)).2 = true
  rw [splitext_snd_lowerStr s]
  simpa using hext

/-- Witness for the universal part of C10 at `Foo.CkPt`. -/
theorem model_extension_case_insensitive_witness :
    lowerStr (splitext (pstr "Foo.CkPt")).2 ∈ MODEL_EXTENSIONS ∧
    is_model_filename (.str (pstr "Foo.CkPt")) = true :=
  ⟨by decide, model_extension_case_insensitive.1 (pstr "Foo.CkPt") (by decide)⟩

/-!
### Claim C5: format detection refinement
-/

/-- Claim C5: on every mapping document, the format detector of the source
computes exactly the three-way classification of the spec (`nodes`-list ⇒ graph, else some
value is a mapping with `class_type` and `inputs` keys ⇒ api, else unknown),
with the `nodes` test taking precedence. -/
theorem detect_format_spec_refinement (kvs : List (List Char × Json)) :
    detect_workflow_format (.obj kvs) = .ok (specDetectObj kvs) := by
  show Except.ok (detectObj kvs) = _
  unfold detectObj specDetectObj
  cases halookup : alookup kvs (pstr "nodes") with
  | none => rfl
  | some v => cases v <;> rfl

/-!
### Claim C8: graph-format widget extraction
-/

/-- The string payload of a JSON string (arbitrary default elsewhere). -/
def jstrVal : Json → List Char
  | .str s => s
  | _ => []

theorem graphWidgetRefs_proj (env : Env) (nid nty : Json) (hint : Option (List Char))
    (cats : Option (List (List Char))) :
    ∀ (vs : List Json) (idx : Nat),
      (graphWidgetRefs env nid nty hint cats idx vs).map
          (fun r => (r.widget_index, r.original_path)) =
        (List.enumFrom idx vs).filterMap
          (fun p => if is_model_filename p.2 then some (Locator.idx p.1, jstrVal p.2)
                    else none) := by
  intro vs
  induction vs with
  | nil => intro idx; rfl
  | cons v rest ih =>
    intro idx
    have hstep : graphWidgetRefs env nid nty hint cats idx (v :: rest) =
        (if is_model_filename v then
          match v with
          | .str s =>
            match try_resolve_model_path env s cats with
            | some (category, full_path) =>
              [{ node_id := nid, node_type := nty, widget_index := .idx idx,
                 original_path := s, category := category, full_path := some full_path,
                 file_exists := env.pathExists full_path }]
            | none =>
              [{ node_id := nid, node_type := nty, widget_index := .idx idx,
                 original_path := s, category := orUnknown hint, full_path := none,
                 file_exists := false }]
          | _ => []
        else []) ++ graphWidgetRefs env nid nty hint cats (idx + 1) rest := rfl
    rw [hstep, List.map_append,
      show List.enumFrom idx (v :: rest) = (idx, v) :: List.enumFrom (idx + 1) rest from rfl,
      List.filterMap_cons]
    by_cases hm : is_model_filename v
    · rw [if_pos hm, if_pos hm]
      cases v with
      | str s =>
        dsimp only
        cases hres : try_resolve_model_path env s cats with
        | some cf =>
          obtain ⟨c, f⟩ := cf
          dsimp only
          simp only [List.map_cons, List.map_nil, List.singleton_append]
          rw [ih]
          rfl
        | none =>
          dsimp only
          simp only [List.map_cons, List.map_nil, List.singleton_append]
          rw [ih]
          rfl
      | null => simp [is_model_filename] at hm
      | bool bv => simp [is_model_filename] at hm
      | num q => simp [is_model_filename] at hm
      | arr xs => simp [is_model_filename] at hm
      | obj o => simp [is_model_filename] at hm
    · rw [if_neg hm, if_neg hm]
      simp only [List.map_nil, List.nil_append]
      exact ih (idx + 1)

/-- Claim C8: in graph format, exactly the `widgets_values` entries that look
like model filenames produce a reference, with the positional index as
locator; in particular `["foo.txt", "bar.safetensors"]` yields exactly one
reference, for `bar.safetensors`, with locator 1. -/
theorem graph_widgets_extraction_characterization :
    (∀ (env : Env) (kvs : List (List Char × Json)) (vs : List Json)
        (hint : Option (List Char)),
      alookup kvs (pstr "widgets_values") = some (.arr vs) →
      hintLookup (jlookupD kvs (pstr "type") (.str [])) = .ok hint →
      ∃ refs, get_node_model_info_graph env (.obj kvs) = .ok refs ∧
        refs.map (fun r => (r.widget_index, r.original_path)) =
          (List.enumFrom 0 vs).filterMap
            (fun p => if is_model_filename p.2 then some (Locator.idx p.1, jstrVal p.2)
                      else none)) ∧
    (∀ env : Env,
      (get_node_model_info_graph env (.obj [(pstr "widgets_values",
          .arr [.str (pstr "foo.txt"), .str (pstr "bar.safetensors")])])).map
        (fun refs => refs.map (fun r => (r.widget_index, r.original_path))) =
        .ok [(Locator.idx 1, pstr "bar.safetensors")]) := by
  constructor
  · intro env kvs vs hint hwv hhint
    unfold get_node_model_info_graph
    dsimp only
    rw [show jlookupD kvs (pstr "widgets_values") (.arr []) = .arr vs from by
      unfold jlookupD; rw [hwv]; rfl]
    cases hvs : vs with
    | nil =>
      refine ⟨[], ?_, rfl⟩
      rfl
    | cons v rest =>
      rw [if_neg (by simp [jtruthy])]
      rw [show hintLookup (jlookupD kvs (pstr "type") (.str [])) = .ok hint from hhint]
      refine ⟨_, rfl, ?_⟩
      exact graphWidgetRefs_proj env _ _ hint (catsOfHint hint) (v :: rest) 0
  · intro env
    rw [show get_node_model_info_graph env (.obj [(pstr "widgets_values",
        .arr [.str (pstr "foo.txt"), .str (pstr "bar.safetensors")])]) =
      .ok (graphWidgetRefs env .null (.str []) none none 0
        [.str (pstr "foo.txt"), .str (pstr "bar.safetensors")]) from rfl]
    show Except.ok (List.map (fun r => (r.widget_index, r.original_path))
      (graphWidgetRefs env .null (.str []) none none 0
        [.str (pstr "foo.txt"), .str (pstr "bar.safetensors")])) = _
    rw [graphWidgetRefs_proj]
    rfl

/-- Witness for the universal part of C8 at the Scenario-D node in the trivial
environment. -/
theorem graph_widgets_extraction_characterization_witness :
    ∃ refs, get_node_model_info_graph env0 (.obj [(pstr "widgets_values",
        .arr [.str (pstr "foo.txt"), .str (pstr "bar.safetensors")])]) = .ok refs ∧
      refs.map (fun r => (r.widget_index, r.original_path)) =
        (List.enumFrom 0 [Json.str (pstr "foo.txt"), Json.str (pstr "bar.safetensors")]).filterMap
          (fun p => if is_model_filename p.2 then some (Locator.idx p.1, jstrVal p.2)
                    else none) :=
  graph_widgets_extraction_characterization.1 env0
    [(pstr "widgets_values", .arr [.str (pstr "foo.txt"), .str (pstr "bar.safetensors")])]
    [.str (pstr "foo.txt"), .str (pstr "bar.safetensors")] none rfl rfl

/-!
### Claim C6: monotonicity of `calculate_token_similarity` under appending a
shared token
-/

theorem interCard_eq (l1 l2 : List (List Char)) :
    setInterCard l1 l2 = (l1.toFinset ∩ l2.toFinset).card := by
  unfold setInterCard
  have hnd : (l1.dedup.filter (fun t => t ∈ l2)).Nodup := l1.nodup_dedup.filter _
  have hset : (l1.dedup.filter (fun t => t ∈ l2)).toFinset = l1.toFinset ∩ l2.toFinset := by
    ext x
    simp [List.mem_filter, List.mem_dedup]
  rw [← List.toFinset_card_of_nodup hnd, hset]

theorem unionCard_eq (l1 l2 : List (List Char)) :
    setUnionCard l1 l2 = (l1.toFinset ∪ l2.toFinset).card := by
  unfold setUnionCard
  rw [← List.toFinset_append, List.card_toFinset]

theorem toFinset_append_singleton (l : List (List Char)) (t : List Char) :
    (l ++ [t]).toFinset = insert t l.toFinset := by
  ext x
  simp [or_comm]

theorem insert_inter_insert (s₁ s₂ : Finset (List Char)) (t : List Char) :
    insert t s₁ ∩ insert t s₂ = insert t (s₁ ∩ s₂) := by
  ext x
  simp only [Finset.mem_inter, Finset.mem_insert]
  tauto

theorem insert_union_insert (s₁ s₂ : Finset (List Char)) (t : List Char) :
    insert t s₁ ∪ insert t s₂ = insert t (s₁ ∪ s₂) := by
  ext x
  simp only [Finset.mem_union, Finset.mem_insert]
  tauto

theorem jaccardQ_append_le (A B : List (List Char)) (t : List Char) (hA : A ≠ []) :
    jaccardQ A B ≤ jaccardQ (A ++ [t]) (B ++ [t]) := by
  unfold jaccardQ
  rw [interCard_eq, unionCard_eq, interCard_eq, unionCard_eq,
    toFinset_append_singleton, toFinset_append_singleton,
    insert_inter_insert, insert_union_insert]
  set SA := A.toFinset
  set SB := B.toFinset
  have husub : SA ∩ SB ⊆ SA ∪ SB := le_trans Finset.inter_subset_left Finset.subset_union_left
  have hile : (SA ∩ SB).card ≤ (SA ∪ SB).card := Finset.card_le_card husub
  have hupos : 0 < (SA ∪ SB).card := by
    rcases A with _ | ⟨a0, arest⟩
    · exact absurd rfl hA
    · apply Finset.card_pos.mpr
      exact ⟨a0, Finset.mem_union_left _ (by simp [SA])⟩
  by_cases hmem : t ∈ SA ∩ SB
  · rw [Finset.card_insert_of_mem hmem,
      Finset.card_insert_of_mem (husub hmem)]
  · rw [Finset.card_insert_of_not_mem hmem]
    have huq : (0 : ℚ) < ((SA ∪ SB).card : ℚ) := by exact_mod_cast hupos
    have hiq : ((SA ∩ SB).card : ℚ) ≤ ((SA ∪ SB).card : ℚ) := by exact_mod_cast hile
    have hinn : (0 : ℚ) ≤ ((SA ∩ SB).card : ℚ) := by positivity
    by_cases humem : t ∈ SA ∪ SB
    · rw [Finset.card_insert_of_mem humem]
      rw [div_le_div_iff huq huq]
      push_cast
      nlinarith [huq, hinn]
    · rw [Finset.card_insert_of_not_mem humem]
      rw [div_le_div_iff huq (by push_cast; linarith)]
      push_cast
      nlinarith [hiq, hinn]

theorem orderScore_nonneg (t1 t2 : List (List Char)) : 0 ≤ orderScore t1 t2 := by
  unfold orderScore
  split
  · positivity
  · exact le_rfl

theorem jaccardQ_nonneg (t1 t2 : List (List Char)) : 0 ≤ jaccardQ t1 t2 := by
  unfold jaccardQ
  positivity

theorem jaccardQ_le_one (t1 t2 : List (List Char)) : jaccardQ t1 t2 ≤ 1 := by
  unfold jaccardQ
  rcases Nat.eq_zero_or_pos (setUnionCard t1 t2) with h0 | hpos
  · rw [h0]
    norm_num
  · rw [div_le_one (by exact_mod_cast hpos)]
    have hle : setInterCard t1 t2 ≤ setUnionCard t1 t2 := by
      rw [interCard_eq, unionCard_eq]
      exact Finset.card_le_card
        (le_trans Finset.inter_subset_left Finset.subset_union_left)
    exact_mod_cast hle

theorem capQ_mono {x y : ℚ} (h : x ≤ y) :
    (if x ≤ 1 then x else 1) ≤ (if y ≤ 1 then y else 1) := by
  by_cases hy : y ≤ 1
  · rw [if_pos hy, if_pos (le_trans h hy)]
    exact h
  · rw [if_neg hy]
    by_cases hx : x ≤ 1
    · rw [if_pos hx]
      exact hx
    · rw [if_neg hx]

theorem getD_append_lt (l l' : List (List Char)) (i : Nat) (hi : i < l.length) :
    (l ++ l').getD i [] = l.getD i [] := by
  rw [List.getD_eq_getElem _ _ (by simp; omega), List.getD_eq_getElem _ _ hi]
  exact List.getElem_append_left hi

theorem getD_append_self (l : List (List Char)) (t : List Char) :
    (l ++ [t]).getD l.length [] = t := by
  rw [List.getD_eq_getElem _ _ (by simp)]
  rw [List.getElem_append_right (le_refl l.length)]
  simp

theorem countP_range_congr (p q : Nat → Bool) (n : Nat)
    (h : ∀ i < n, p i = q i) :
    (List.range n).countP p = (List.range n).countP q := by
  apply List.countP_congr
  intro i hi
  rw [h i (List.mem_range.mp hi)]

theorem orderCounts_snd_eq_countP (t1 t2 : List (List Char)) :
    (orderCounts t1 t2).2 = (List.range (min 3 (min t1.length t2.length))).countP
      (fun i => t1.getD i [] = t2.getD i []) := by
  unfold orderCounts
  dsimp only
  rw [← List.countP_eq_length_filter]

theorem orderScore_append_le (A B : List (List Char)) (t : List Char)
    (hlen : A.length = B.length) :
    orderScore A B ≤ orderScore (A ++ [t]) (B ++ [t]) := by
  rcases Nat.lt_or_ge A.length 2 with hn | hn
  · have h1 : ¬ (1 < A.length ∧ 1 < B.length) := by omega
    unfold orderScore
    rw [if_neg h1]
    split
    · positivity
    · exact le_rfl
  · have h1 : (1 < A.length ∧ 1 < B.length) := by omega
    have h1' : (1 < (A ++ [t]).length ∧ 1 < (B ++ [t]).length) := by
      simp only [List.length_append, List.length_cons, List.length_nil]
      omega
    unfold orderScore
    rw [if_pos h1, if_pos h1']
    rcases Nat.lt_or_ge A.length 3 with hn2 | hn3
    · -- length exactly 2: checked positions grow from 2 to 3 and the new
      -- position always matches, so the bonus cannot shrink
      have hA2 : A.length = 2 := by omega
      have hB2 : B.length = 2 := by omega
      have hfst : (orderCounts A B).1 = 2 := by
        unfold orderCounts
        simp [hA2, hB2]
      have hfst' : (orderCounts (A ++ [t]) (B ++ [t])).1 = 3 := by
        unfold orderCounts
        simp [List.length_append, hA2, hB2]
      have hsnd : (orderCounts A B).2 =
          (List.range 2).countP (fun i => A.getD i [] = B.getD i []) := by
        rw [orderCounts_snd_eq_countP, hA2, hB2,
          show (min 3 (min 2 2) : Nat) = 2 from by decide]
      have e2 : (A ++ [t]).getD 2 [] = (B ++ [t]).getD 2 [] := by
        rw [show (2 : Nat) = A.length from hA2.symm, getD_append_self]
        rw [show A.length = B.length from hlen, getD_append_self]
      have hsnd' : (orderCounts (A ++ [t]) (B ++ [t])).2 =
          (List.range 2).countP (fun i => A.getD i [] = B.getD i []) + 1 := by
        rw [orderCounts_snd_eq_countP]
        have hm3 : min 3 (min (A ++ [t]).length (B ++ [t]).length) = 3 := by
          simp only [List.length_append, List.length_cons, List.length_nil]
          omega
        rw [hm3, show List.range 3 = [0, 1, 2] from by decide,
          show List.range 2 = [0, 1] from by decide]
        have d0 : decide ((A ++ [t]).getD 0 [] = (B ++ [t]).getD 0 []) =
            decide (A.getD 0 [] = B.getD 0 []) := by
          rw [getD_append_lt _ _ _ (by omega), getD_append_lt _ _ _ (by omega)]
        have d1 : decide ((A ++ [t]).getD 1 [] = (B ++ [t]).getD 1 []) =
            decide (A.getD 1 [] = B.getD 1 []) := by
          rw [getD_append_lt _ _ _ (by omega), getD_append_lt _ _ _ (by omega)]
        have d2 : decide ((A ++ [t]).getD 2 [] = (B ++ [t]).getD 2 []) = true := by
          simpa using e2
        simp only [List.countP_cons, List.countP_nil, d0, d1, d2,
          eq_self_iff_true, if_true]
        omega
      have hmole : (List.range 2).countP (fun i => A.getD i [] = B.getD i []) ≤ 2 := by
        calc (List.range 2).countP _ ≤ (List.range 2).length := List.countP_le_length _
        _ = 2 := by simp
      rw [hfst, hfst', hsnd, hsnd']
      set mo := (List.range 2).countP (fun i => A.getD i [] = B.getD i []) with hmo
      have hcast : ((mo : ℚ) ≤ 2) := by exact_mod_cast hmole
      push_cast
      rw [div_mul_eq_mul_div, div_mul_eq_mul_div, div_le_div_iff (by norm_num) (by norm_num)]
      ring_nf
      nlinarith [hcast]
    · -- length at least 3: the three checked positions are unchanged
      have hfst : (orderCounts (A ++ [t]) (B ++ [t])).1 = (orderCounts A B).1 := by
        unfold orderCounts
        simp only [List.length_append, List.length_cons, List.length_nil]
        omega
      have hsnd : (orderCounts (A ++ [t]) (B ++ [t])).2 = (orderCounts A B).2 := by
        rw [orderCounts_snd_eq_countP, orderCounts_snd_eq_countP]
        have hm : min 3 (min (A ++ [t]).length (B ++ [t]).length) =
            min 3 (min A.length B.length) := by
          simp only [List.length_append, List.length_cons, List.length_nil]
          omega
        rw [hm]
        apply countP_range_congr
        intro i hi
        have hi3 : i < A.length := by omega
        have hi3' : i < B.length := by omega
        rw [getD_append_lt _ _ _ hi3, getD_append_lt _ _ _ hi3']
      rw [hfst, hsnd]

/-- Claim C6 as amended: for token sequences of equal length, appending the
same token to both never decreases `calculate_token_similarity`. -/
theorem token_similarity_append_monotone_equal_length (A B : List (List Char))
    (t : List Char) (hlen : A.length = B.length) :
    calculate_token_similarity A B ≤ calculate_token_similarity (A ++ [t]) (B ++ [t]) := by
  by_cases hA : A = []
  · subst hA
    have hB : B = [] := List.length_eq_zero.mp (by simp at hlen; omega)
    subst hB
    have hL : calculate_token_similarity ([] : List (List Char)) [] = 0 := by
      unfold calculate_token_similarity
      rw [if_pos (Or.inl rfl)]
    rw [hL]
    unfold calculate_token_similarity
    split
    · exact le_rfl
    · split
      · exact le_rfl
      · split
        · next h =>
          exact add_nonneg (jaccardQ_nonneg _ _) (orderScore_nonneg _ _)
        · norm_num
  · have hB : B ≠ [] := by
      intro h
      subst h
      simp at hlen
      exact hA hlen
    have hA' : A ++ [t] ≠ [] := by simp
    have hB' : B ++ [t] ≠ [] := by simp
    have hu : setUnionCard A B ≠ 0 := by
      rw [unionCard_eq]
      rcases A with _ | ⟨a0, arest⟩
      · exact absurd rfl hA
      · have : 0 < ((a0 :: arest).toFinset ∪ B.toFinset).card :=
          Finset.card_pos.mpr ⟨a0, Finset.mem_union_left _ (by simp)⟩
        omega
    have hu' : setUnionCard (A ++ [t]) (B ++ [t]) ≠ 0 := by
      rw [unionCard_eq]
      have : 0 < ((A ++ [t]).toFinset ∪ (B ++ [t]).toFinset).card :=
        Finset.card_pos.mpr ⟨t, Finset.mem_union_left _ (by simp)⟩
      omega
    have hLform : calculate_token_similarity A B =
        (if jaccardQ A B + orderScore A B ≤ 1
         then jaccardQ A B + orderScore A B else 1) := by
      unfold calculate_token_similarity
      rw [if_neg (by simp [hA, hB]), if_neg hu]
    have hRform : calculate_token_similarity (A ++ [t]) (B ++ [t]) =
        (if jaccardQ (A ++ [t]) (B ++ [t]) + orderScore (A ++ [t]) (B ++ [t]) ≤ 1
         then jaccardQ (A ++ [t]) (B ++ [t]) + orderScore (A ++ [t]) (B ++ [t]) else 1) := by
      unfold calculate_token_similarity
      rw [if_neg (by simp [hA', hB']), if_neg hu']
    rw [hLform, hRform]
    apply capQ_mono
    have hj := jaccardQ_append_le A B t hA
    have ho := orderScore_append_le A B t hlen
    linarith

/-- The two token-similarity values of the C6 counterexample. -/
theorem tokenSim_ab_abx :
    calculate_token_similarity [pstr "a", pstr "b"] [pstr "a", pstr "b", pstr "x"] =
      13 / 15 := by
  simp only [calculate_token_similarity, jaccardQ, orderScore,
    show setInterCard [pstr "a", pstr "b"] [pstr "a", pstr "b", pstr "x"] = 2 from by decide,
    show setUnionCard [pstr "a", pstr "b"] [pstr "a", pstr "b", pstr "x"] = 3 from by decide,
    show orderCounts [pstr "a", pstr "b"] [pstr "a", pstr "b", pstr "x"] = (2, 2) from by decide]
  norm_num
  decide

theorem tokenSim_aba_abxa :
    calculate_token_similarity [pstr "a", pstr "b", pstr "a"]
      [pstr "a", pstr "b", pstr "x", pstr "a"] = 4 / 5 := by
  simp only [calculate_token_similarity, jaccardQ, orderScore,
    show setInterCard [pstr "a", pstr "b", pstr "a"]
      [pstr "a", pstr "b", pstr "x", pstr "a"] = 2 from by decide,
    show setUnionCard [pstr "a", pstr "b", pstr "a"]
      [pstr "a", pstr "b", pstr "x", pstr "a"] = 3 from by decide,
    show orderCounts [pstr "a", pstr "b", pstr "a"]
      [pstr "a", pstr "b", pstr "x", pstr "a"] = (3, 2) from by decide]
  norm_num
  decide

/-- Counterexample to claim C6 as stated: appending the shared token `"a"`
(present in both lists) to `["a","b"]` and `["a","b","x"]` strictly decreases
`calculate_token_similarity` (from 13/15 to 4/5), because the order-bonus
denominator grows from 2 to 3 while the third position mismatches. -/
theorem token_similarity_append_decrease_counterexample :
    pstr "a" ∈ [pstr "a", pstr "b"] ∧ pstr "a" ∈ [pstr "a", pstr "b", pstr "x"] ∧
    calculate_token_similarity ([pstr "a", pstr "b"] ++ [pstr "a"])
        ([pstr "a", pstr "b", pstr "x"] ++ [pstr "a"]) <
      calculate_token_similarity [pstr "a", pstr "b"] [pstr "a", pstr "b", pstr "x"] := by
  refine ⟨by decide, by decide, ?_⟩
  rw [show [pstr "a", pstr "b"] ++ [pstr "a"] = [pstr "a", pstr "b", pstr "a"] from rfl,
    show [pstr "a", pstr "b", pstr "x"] ++ [pstr "a"] =
      [pstr "a", pstr "b", pstr "x", pstr "a"] from rfl,
    tokenSim_ab_abx, tokenSim_aba_abxa]
  norm_num

/-- Witness for the amended C6 theorem at `A = ["a"]`, `B = ["b"]`, `t = "c"`. -/
theorem token_similarity_append_monotone_witness :
    calculate_token_similarity [pstr "a"] [pstr "b"] ≤
      calculate_token_similarity ([pstr "a"] ++ [pstr "c"]) ([pstr "b"] ++ [pstr "c"]) :=
  token_similarity_append_monotone_equal_length [pstr "a"] [pstr "b"] (pstr "c") (by decide)

/-!
### Claim C4: robustness of `analyze_workflow_models`
-/

/-- Counterexample to claim C4 as stated: a non-mapping document (here the
empty JSON list) makes `analyze_workflow_models` raise (the membership test
`nodes in doc`
succeeds on a list, but `.items()` then raises `AttributeError`), instead of
returning an empty reference list. -/
theorem analyze_raises_on_nonmapping_counterexample :
    analyze_workflow_models env0 (.arr []) = .error .attributeError ∧
    ¬ analyze_workflow_models env0 (.arr []) = .ok [] := by
  refine ⟨rfl, ?_⟩
  intro h
  exact Except.noConfusion h

theorem graphNodeStep_obj_error (env : Env) (bkvs : List (List Char × Json)) (e : PyErr)
    (h : get_node_model_info_graph env (.obj bkvs) = .error e) :
    graphNodeStep env (.obj bkvs) = .ok [] := by
  unfold graphNodeStep
  rw [h]

theorem graphNodeStep_nonobj (env : Env) (n : Json) (h : isObj n = false) :
    graphNodeStep env n = .error .attributeError := by
  cases n with
  | obj kvs => exact Bool.noConfusion h
  | null => rfl
  | bool b => rfl
  | num q => rfl
  | str s => rfl
  | arr xs => rfl

theorem graphNodeStep_error_eq (env : Env) (n : Json) (e : PyErr)
    (h : graphNodeStep env n = .error e) : e = .attributeError := by
  unfold graphNodeStep at h
  cases hg : get_node_model_info_graph env n with
  | ok refs =>
    rw [hg] at h
    exact Except.noConfusion h
  | error e0 =>
    rw [hg] at h
    cases n with
    | obj kvs => exact Except.noConfusion h
    | null => injection h with h1; exact h1.symm
    | bool b => injection h with h1; exact h1.symm
    | num q => injection h with h1; exact h1.symm
    | str s => injection h with h1; exact h1.symm
    | arr xs => injection h with h1; exact h1.symm

theorem graphRefs_skip_obj_error (env : Env) (bkvs : List (List Char × Json)) (e : PyErr)
    (hbad : get_node_model_info_graph env (.obj bkvs) = .error e) (ns₁ ns₂ : List Json) :
    graphRefs env (ns₁ ++ .obj bkvs :: ns₂) = graphRefs env (ns₁ ++ ns₂) := by
  induction ns₁ with
  | nil =>
    simp only [List.nil_append, graphRefs]
    rw [graphNodeStep_obj_error env bkvs e hbad]
    cases hr : graphRefs env ns₂ with
    | ok rs => simp
    | error e2 => rfl
  | cons a ns₁ ih =>
    simp only [List.cons_append, graphRefs, List.append_eq]
    rw [ih]

theorem graphRefs_abort_nonobj (env : Env) (bad : Json) (h : isObj bad = false)
    (ns₁ ns₂ : List Json) :
    graphRefs env (ns₁ ++ bad :: ns₂) = .error .attributeError := by
  induction ns₁ with
  | nil =>
    simp only [List.nil_append, graphRefs, graphNodeStep_nonobj env bad h]
  | cons a ns₁ ih =>
    simp only [List.cons_append, graphRefs, List.append_eq]
    cases hs : graphNodeStep env a with
    | error e2 =>
      dsimp only
      rw [graphNodeStep_error_eq env a e2 hs]
    | ok refs =>
      dsimp only
      rw [ih]

/-- Claim C4 as amended: for mapping documents, an unrecognized shape yields
an empty reference list without raising; in a graph-format document without a
`definitions` section, an extraction failure inside one *mapping* node is
caught at single-node granularity — the analysis result is exactly as if that
node were absent, so references from the remaining nodes are still returned;
but a *non-mapping* entry in the node list makes the whole analysis raise
`AttributeError`, because the handler evaluates `node.get('id', 'unknown')`
in its log message, which raises again on such a node.  (Non-mapping
documents also raise — see the counterexample.) -/
theorem analyze_mapping_robustness :
    (∀ (env : Env) (kvs : List (List Char × Json)),
      detectObj kvs = pstr "unknown" →
      analyze_workflow_models env (.obj kvs) = .ok []) ∧
    (∀ (env : Env) (kvs : List (List Char × Json)) (ns₁ ns₂ : List Json)
        (bkvs : List (List Char × Json)) (e : PyErr),
      alookup kvs (pstr "nodes") = some (.arr (ns₁ ++ .obj bkvs :: ns₂)) →
      alookup kvs (pstr "definitions") = none →
      get_node_model_info_graph env (.obj bkvs) = .error e →
      analyze_workflow_models env (.obj kvs) = graphRefs env (ns₁ ++ ns₂)) ∧
    (∀ (env : Env) (kvs : List (List Char × Json)) (ns₁ ns₂ : List Json)
        (bad : Json),
      alookup kvs (pstr "nodes") = some (.arr (ns₁ ++ bad :: ns₂)) →
      isObj bad = false →
      analyze_workflow_models env (.obj kvs) = .error .attributeError) := by
  refine ⟨?_, ?_, ?_⟩
  · intro env kvs hunk
    unfold analyze_workflow_models
    dsimp only
    rw [hunk]
    rw [if_neg (by decide : ¬ pstr "unknown" = pstr "api"),
      if_neg (by decide : ¬ pstr "unknown" = pstr "graph")]
  · intro env kvs ns₁ ns₂ bkvs e hnodes hdefs hbad
    unfold analyze_workflow_models
    dsimp only
    have hfmt : detectObj kvs = pstr "graph" := by
      unfold detectObj
      rw [hnodes]
    rw [hfmt]
    rw [if_neg (by decide : ¬ pstr "graph" = pstr "api"), if_pos rfl]
    rw [show jlookupD kvs (pstr "nodes") (.arr []) = .arr (ns₁ ++ .obj bkvs :: ns₂) from by
      unfold jlookupD; rw [hnodes]; rfl]
    rw [show jlookupD kvs (pstr "definitions") (.obj []) = .obj [] from by
      unfold jlookupD; rw [hdefs]; rfl]
    show Except.bind (graphRefs env (ns₁ ++ .obj bkvs :: ns₂)) _ = _
    rw [graphRefs_skip_obj_error env bkvs e hbad ns₁ ns₂]
    cases hg : graphRefs env (ns₁ ++ ns₂) with
    | ok t =>
      show Except.ok (t ++ List.flatten []) = Except.ok t
      rw [show List.flatten ([] : List (List ModelRef)) = [] from rfl, List.append_nil]
    | error e2 => rfl
  · intro env kvs ns₁ ns₂ bad hnodes hbad
    unfold analyze_workflow_models
    dsimp only
    have hfmt : detectObj kvs = pstr "graph" := by
      unfold detectObj
      rw [hnodes]
    rw [hfmt]
    rw [if_neg (by decide : ¬ pstr "graph" = pstr "api"), if_pos rfl]
    rw [show jlookupD kvs (pstr "nodes") (.arr []) = .arr (ns₁ ++ bad :: ns₂) from by
      unfold jlookupD; rw [hnodes]; rfl]
    show Except.bind (graphRefs env (ns₁ ++ bad :: ns₂)) _ = _
    rw [graphRefs_abort_nonobj env bad hbad ns₁ ns₂]
    rfl

/-- An ordinary graph node carrying one model reference, for the witness. -/
def goodNode : Json := .obj [(pstr "widgets_values", .arr [.str (pstr "m.ckpt")])]

/-- Fields of a mapping node whose extraction fails: its `type` value is a
list, so the category-hint dictionary lookup raises `TypeError` (unhashable
key); since the node is a mapping, the handler logs and skips it. -/
def badNodeKvs : List (List Char × Json) :=
  [(pstr "type", .arr []), (pstr "widgets_values", .arr [.str (pstr "x.ckpt")])]

/-- Witness for the amended C4 theorem: an unrecognized mapping yields `[]`;
a graph document containing one good node and one malformed mapping node
behaves as if the malformed node were absent; and replacing the malformed
mapping node by an integer makes the whole analysis raise. -/
theorem analyze_mapping_robustness_witness :
    analyze_workflow_models env0 (.obj [(pstr "other", .num 1)]) = .ok [] ∧
    analyze_workflow_models env0 (.obj [(pstr "nodes",
        .arr ([goodNode] ++ Json.obj badNodeKvs :: []))]) =
      graphRefs env0 ([goodNode] ++ []) ∧
    analyze_workflow_models env0 (.obj [(pstr "nodes",
        .arr ([goodNode] ++ Json.num 0 :: []))]) = .error .attributeError :=
  ⟨analyze_mapping_robustness.1 env0 [(pstr "other", .num 1)] rfl,
   analyze_mapping_robustness.2.1 env0
     [(pstr "nodes", Json.arr ([goodNode] ++ Json.obj badNodeKvs :: []))]
     [goodNode] [] badNodeKvs PyErr.typeError rfl rfl rfl,
   analyze_mapping_robustness.2.2 env0
     [(pstr "nodes", Json.arr ([goodNode] ++ Json.num 0 :: []))]
     [goodNode] [] (Json.num 0) rfl rfl⟩

example : seqMatcherM (pstr "sd xl base 1.0") (pstr "sd xl base 1") = 12 := by decide

example : seqMatcherM (pstr "abcd") (pstr "bcd") = 3 := by decide

example : seqMatcherM (pstr "a.b") (pstr "a b") = 2 := by decide

example : seqMatcherM [] [] = 0 := by decide

example : tokenize_model_name (pstr "sd_xl_base_1.0.safetensors") =
    [pstr "sd", pstr "xl", pstr "base", pstr "1", pstr "0"] := by decide

example : normalize_filename (pstr "_.ckpt") = [] := by decide

example : normalize_filename (pstr "SD_XL- base_1.0.safetensors") =
    pstr "sd xl base 1.0" := by decide

example : calculate_token_similarity
    (tokenize_model_name (pstr "sd_xl_base_1.0.safetensors"))
    (tokenize_model_name (pstr "sd_xl_base_1.safetensors")) = 1 := by
  simp only [calculate_token_similarity, jaccardQ, orderScore,
    show tokenize_model_name (pstr "sd_xl_base_1.0.safetensors") =
      [pstr "sd", pstr "xl", pstr "base", pstr "1", pstr "0"] from by decide,
    show tokenize_model_name (pstr "sd_xl_base_1.safetensors") =
      [pstr "sd", pstr "xl", pstr "base", pstr "1"] from by decide,
    show setInterCard [pstr "sd", pstr "xl", pstr "base", pstr "1", pstr "0"]
      [pstr "sd", pstr "xl", pstr "base", pstr "1"] = 4 from by decide,
    show setUnionCard [pstr "sd", pstr "xl", pstr "base", pstr "1", pstr "0"]
      [pstr "sd", pstr "xl", pstr "base", pstr "1"] = 5 from by decide,
    show orderCounts [pstr "sd", pstr "xl", pstr "base", pstr "1", pstr "0"]
      [pstr "sd", pstr "xl", pstr "base", pstr "1"] = (3, 3) from by decide]
  norm_num
  decide

example : calculate_token_similarity [pstr "a", pstr "b"]
    [pstr "a", pstr "b", pstr "x"] = 13 / 15 := by
  simp only [calculate_token_similarity, jaccardQ, orderScore,
    show setInterCard [pstr "a", pstr "b"] [pstr "a", pstr "b", pstr "x"] = 2 from by decide,
    show setUnionCard [pstr "a", pstr "b"] [pstr "a", pstr "b", pstr "x"] = 3 from by decide,
    show orderCounts [pstr "a", pstr "b"] [pstr "a", pstr "b", pstr "x"] = (2, 2) from by decide]
  norm_num
  decide

example : calculate_token_similarity [pstr "a", pstr "b", pstr "a"]
    [pstr "a", pstr "b", pstr "x", pstr "a"] = 4 / 5 := by
  simp only [calculate_token_similarity, jaccardQ, orderScore,
    show setInterCard [pstr "a", pstr "b", pstr "a"]
      [pstr "a", pstr "b", pstr "x", pstr "a"] = 2 from by decide,
    show setUnionCard [pstr "a", pstr "b", pstr "a"]
      [pstr "a", pstr "b", pstr "x", pstr "a"] = 3 from by decide,
    show orderCounts [pstr "a", pstr "b", pstr "a"]
      [pstr "a", pstr "b", pstr "x", pstr "a"] = (3, 2) from by decide]
  norm_num
  decide

end ModelLinker
